import Mathlib

/-!
# StreamHalHidl: the client side of the audio HAL streaming handshake

A shallow embedding of `media/libaudiohal/StreamHalHidl.cpp`:
`StreamOutHalHidl::write`, `prepareForWriting`, `getCurrentTimeMs`,
`getPresentationPosition`, `StreamInHalHidl::read` and `prepareForReading`.

Conventions of the embedding.

* The member variables of a stream object are the fields of a structure; every
  method takes the object and returns it, together with the returned status,
  the out-parameters and the list of calls it made to its collaborators.
* The collaborators (the remote stream endpoint, the event flag, the status
  queue, the clock, the peer that empties or fills the data queue) are not part
  of the translation unit.  What they answer is an input of the method.
* Constants and helpers that come from headers outside the translation unit
  (`OK`, `NO_INIT`, `EAGAIN`, `NS_PER_SEC`, `processReturn`, ...) are fields of
  `Externals`; nothing is assumed about their values, except where a theorem
  takes the hypothesis `Externals.Sane`.
* Integers are `Nat`/`Int`.  `uint64_t` arithmetic that can wrap is reduced
  modulo `2^64`.  The target is taken to be LP64: `size_t` and `long` are
  64 bits wide.
* A smart pointer or raw pointer that may be null is an `Option`; following a
  null pointer is the fault `Fault.nullDeref`.
-/

namespace StreamHalHidl

/-- The type `status_t` of the platform. -/
abbrev status_t := Int

/-- The enum `android::hardware::audio::V2_0::Result`. -/
inductive Result
  | OK
  | NOT_INITIALIZED
  | INVALID_ARGUMENTS
  | INVALID_STATE
  | NOT_SUPPORTED
  deriving DecidableEq, Repr

/-- Names that `StreamHalHidl.cpp` uses and that are declared in headers outside
it: status codes, `errno` values, the `MessageQueueFlagBits`, the wait timeout,
the default thread priority and the two overloads of
`ConversionHelperHidl::processReturn` used by the streaming code. -/
structure Externals where
  /-- The status `OK`. -/
  OK : status_t
  /-- The status `NO_INIT`. -/
  NO_INIT : status_t
  /-- The status `INVALID_OPERATION`. -/
  INVALID_OPERATION : status_t
  /-- The value `EAGAIN` of errno.h. -/
  EAGAIN : Int
  /-- The bit `MessageQueueFlagBits::NOT_EMPTY`. -/
  NOT_EMPTY : Nat
  /-- The bit `MessageQueueFlagBits::NOT_FULL`. -/
  NOT_FULL : Nat
  /-- The wait timeout `NS_PER_SEC`. -/
  NS_PER_SEC : Nat
  /-- The value of `ThreadPriority::NORMAL`. -/
  THREAD_PRIORITY_NORMAL : Int
  /-- The call `processReturn(name, result)` on a `Result` value. -/
  processReturnResult : Result → status_t
  /-- The call `processReturn(name, ret, retval)`: the first argument is
  `ret.isOk()`, the second the local `retval`, `none` while it is unassigned. -/
  processReturn : Bool → Option Result → status_t

/-- The HIDL struct `TimeSpec`: two `uint64_t` fields. -/
structure TimeSpec where
  tvSec : Nat
  tvNSec : Nat
  deriving DecidableEq, Repr

/-- The C struct `timespec`: `time_t tv_sec; long tv_nsec`. -/
structure timespec where
  tv_sec : Int
  tv_nsec : Int
  deriving DecidableEq, Repr

/-- Conversion of a `uint64_t` to `long` (64 bits, two's complement). -/
def toLong (n : Nat) : Int :=
  if n % 2 ^ 64 < 2 ^ 63 then ((n % 2 ^ 64 : Nat) : Int) else ((n % 2 ^ 64 : Nat) : Int) - 2 ^ 64

/-- The assignment of a HIDL `TimeSpec` to a C `timespec`, field by field
(lines 314-315 and 463-464). -/
def TimeSpec.toTimespec (t : TimeSpec) : timespec :=
  { tv_sec := toLong t.tvSec, tv_nsec := toLong t.tvNSec }

/-- The difference `a - b` of two `uint64_t` values. -/
def u64sub (a b : Nat) : Nat := (a % 2 ^ 64 + (2 ^ 64 - b % 2 ^ 64)) % 2 ^ 64

/-- The method `StreamOutHalHidl::getCurrentTimeMs` (lines 330-334) applied to the
reading `timeNow` that `clock_gettime(CLOCK_MONOTONIC, ..)` delivered:
`timeNow.tv_sec * 1000000 + timeNow.tv_nsec / 1000`, returned as `uint64_t`. -/
def getCurrentTimeMs (timeNow : timespec) : Nat :=
  ((timeNow.tv_sec * 1000000 + Int.tdiv timeNow.tv_nsec 1000) % 2 ^ 64).toNat

/-- Modelled from the spec: the Shared Ring Channel of section 4.1 (the class
`MessageQueue<uint8_t>` behind `DataMQ`), reduced to its fill level.  `isValid`
and `eventFlagWord` are what `isValid()` and `getEventFlagWord()` report. -/
structure DataMQ where
  isValid : Bool
  eventFlagWord : Bool
  capacity : Nat
  level : Nat
  deriving DecidableEq, Repr

/-- Modelled from the spec: `availableToWrite()` of section 4.1. -/
def DataMQ.availableToWrite (q : DataMQ) : Nat := q.capacity - q.level

/-- Modelled from the spec: `availableToRead()` of section 4.1. -/
def DataMQ.availableToRead (q : DataMQ) : Nat := q.level

/-- Modelled from the spec: `write(data, n)` of section 4.1; it succeeds exactly
when `n` bytes fit and never writes a part of them. -/
def DataMQ.write (q : DataMQ) (n : Nat) : Bool × DataMQ :=
  if n ≤ q.availableToWrite then (true, { q with level := q.level + n }) else (false, q)

/-- Modelled from the spec: `read(data, n)` of section 4.1; it succeeds exactly
when `n` bytes are present. -/
def DataMQ.read (q : DataMQ) (n : Nat) : Bool × DataMQ :=
  if n ≤ q.availableToRead then (true, { q with level := q.level - n }) else (false, q)

/-- Modelled from the spec: the peer consumes up to `n` bytes of the ring. -/
def DataMQ.peerDrain (q : DataMQ) (n : Nat) : DataMQ := { q with level := q.level - n }

/-- Modelled from the spec: the peer produces up to `n` bytes into the ring. -/
def DataMQ.peerFill (q : DataMQ) (n : Nat) : DataMQ :=
  { q with level := min q.capacity (q.level + n) }

/-- Modelled from the spec: the Status Ring Channel (`StatusMQ`); only `isValid()`
is consulted by the session, the records come from the peer. -/
structure StatusMQ where
  isValid : Bool
  deriving DecidableEq, Repr

/-- Modelled from the spec: the Event Signal Group (`EventFlag`), an object
without state of its own on the client side. -/
inductive EventFlag
  | mk
  deriving DecidableEq, Repr

/-- The HIDL struct `IStreamOut::WriteStatus`, in the order of the initialiser
on line 305. -/
structure WriteStatus where
  writeRetval : Result
  written : Nat
  presentationPositionRetval : Result
  frames : Nat
  timeStamp : TimeSpec
  deriving DecidableEq, Repr

/-- The HIDL struct `IStreamIn::ReadStatus`, in the order of the initialiser on
line 540. -/
structure ReadStatus where
  retval : Result
  read : Nat
  deriving DecidableEq, Repr

/-- The member `mPPosFromWrite`, in the order of the initialiser on line 245. -/
structure PPosFromWrite where
  obtained : Nat
  status : status_t
  frames : Nat
  ts : timespec
  deriving DecidableEq, Repr

/-- The members of a `StreamOutHalHidl` object that the streaming code uses.
`mStream` is true when the endpoint pointer is not null. -/
structure StreamOutHalHidl where
  mStream : Bool
  mHalThreadPriority : Int
  mDataMQ : Option DataMQ
  mStatusMQ : Option StatusMQ
  mEfGroup : Option EventFlag
  mGetPresentationPositionNotSupported : Bool
  mPPosFromWrite : PPosFromWrite
  deriving DecidableEq, Repr

/-- The members of a `StreamInHalHidl` object that the streaming code uses. -/
structure StreamInHalHidl where
  mStream : Bool
  mHalThreadPriority : Int
  mDataMQ : Option DataMQ
  mStatusMQ : Option StatusMQ
  mEfGroup : Option EventFlag
  deriving DecidableEq, Repr

/-- The constructor `StreamOutHalHidl::StreamOutHalHidl` (lines 243-246, with the
base class constructor of lines 46-50). -/
def StreamOutHalHidl.create (K : Externals) (stream : Bool) : StreamOutHalHidl :=
  { mStream := stream
    mHalThreadPriority := K.THREAD_PRIORITY_NORMAL
    mDataMQ := none
    mStatusMQ := none
    mEfGroup := none
    mGetPresentationPositionNotSupported := false
    mPPosFromWrite := { obtained := 0, status := K.OK, frames := 0, ts := { tv_sec := 0, tv_nsec := 0 } } }

/-- The constructor `StreamInHalHidl::StreamInHalHidl` (lines 495-497). -/
def StreamInHalHidl.create (K : Externals) (stream : Bool) : StreamInHalHidl :=
  { mStream := stream
    mHalThreadPriority := K.THREAD_PRIORITY_NORMAL
    mDataMQ := none
    mStatusMQ := none
    mEfGroup := none }

/-- A call made to a collaborator. -/
inductive Event
  /-- The remote call `mStream->prepareForWriting(frameSize, framesCount, priority, ..)`. -/
  | prepareForWriting (frameSize framesCount : Nat) (priority : Int)
  /-- The remote call `mStream->prepareForReading(frameSize, framesCount, priority, ..)`. -/
  | prepareForReading (frameSize framesCount : Nat) (priority : Int)
  /-- The remote call `mStream->getPresentationPosition(..)`. -/
  | getPresentationPosition
  /-- The call `EventFlag::createEventFlag`. -/
  | createEventFlag
  /-- The call `mDataMQ->write(buffer, bytes)`. -/
  | dataWrite (bytes : Nat)
  /-- The call `mDataMQ->read(buffer, bytes)`. -/
  | dataRead (bytes : Nat)
  /-- The call `mEfGroup->wake(bits)`. -/
  | wake (bits : Nat)
  /-- The call `mEfGroup->wait(bits, &efState, timeout)`. -/
  | wait (bits : Nat) (timeoutNs : Nat)
  /-- The call `mStatusMQ->read(&status)`. -/
  | statusRead
  deriving DecidableEq, Repr

/-- Ways in which a run of the embedding ends without a return value. -/
inductive Fault
  /-- A null `mDataMQ`, `mStatusMQ` or `mEfGroup` was dereferenced. -/
  | nullDeref
  /-- The call is still inside `wait`: every scripted outcome has been consumed
  and each one sent the code back to `retry`. -/
  | stillWaiting
  deriving DecidableEq, Repr

/-- What one call of `mEfGroup->wait` delivers: the returned status and the
content of `efState` after it. -/
structure WaitOutcome where
  ret : status_t
  efState : Nat
  deriving DecidableEq, Repr

/-- What the callback of `prepareForWriting`/`prepareForReading` receives. -/
structure PrepareReply where
  retval : Result
  dataMQ : DataMQ
  statusMQ : StatusMQ
  deriving DecidableEq, Repr

/-- The answers of the collaborators during one negotiation.  `reply = none`:
the transaction failed (`ret.isOk()` is false) and the callback did not run.
`createEventFlag`: the pointer that `EventFlag::createEventFlag` stores into
`mEfGroup`. -/
structure PrepareEnv where
  reply : Option PrepareReply
  createEventFlag : Option EventFlag
  deriving DecidableEq, Repr

/-- The result of a negotiation. -/
structure PrepareRet (σ : Type) where
  status : status_t
  state : σ
  trace : List Event

/-- The method `StreamOutHalHidl::prepareForWriting` (lines 336-370). -/
def prepareForWriting (K : Externals) (s : StreamOutHalHidl) (bufferSize : Nat)
    (env : PrepareEnv) : PrepareRet StreamOutHalHidl :=
  let call := Event.prepareForWriting 1 bufferSize s.mHalThreadPriority
  match env.reply with
  | none => { status := K.processReturn false none, state := s, trace := [call] }
  | some rep =>
    if rep.retval = Result.OK then
      -- lines 347-351: both temporaries are built, the event flag goes to the member
      let created := rep.dataMQ.isValid && rep.dataMQ.eventFlagWord
      let s1 := { s with mEfGroup := if created then env.createEventFlag else s.mEfGroup }
      let tr := if created then [call, Event.createEventFlag] else [call]
      if !rep.dataMQ.isValid || !rep.statusMQ.isValid || s1.mEfGroup.isNone then
        { status := K.NO_INIT, state := s1, trace := tr }
      else
        { status := K.OK
          state := { s1 with mDataMQ := some rep.dataMQ, mStatusMQ := some rep.statusMQ }
          trace := tr }
    else
      { status := K.processReturn true (some rep.retval), state := s, trace := [call] }

/-- The method `StreamInHalHidl::prepareForReading` (lines 563-597). -/
def prepareForReading (K : Externals) (s : StreamInHalHidl) (bufferSize : Nat)
    (env : PrepareEnv) : PrepareRet StreamInHalHidl :=
  let call := Event.prepareForReading 1 bufferSize s.mHalThreadPriority
  match env.reply with
  | none => { status := K.processReturn false none, state := s, trace := [call] }
  | some rep =>
    if rep.retval = Result.OK then
      let created := rep.dataMQ.isValid && rep.dataMQ.eventFlagWord
      let s1 := { s with mEfGroup := if created then env.createEventFlag else s.mEfGroup }
      let tr := if created then [call, Event.createEventFlag] else [call]
      if !rep.dataMQ.isValid || !rep.statusMQ.isValid || s1.mEfGroup.isNone then
        { status := K.NO_INIT, state := s1, trace := tr }
      else
        { status := K.OK
          state := { s1 with mDataMQ := some rep.dataMQ, mStatusMQ := some rep.statusMQ }
          trace := tr }
    else
      { status := K.processReturn true (some rep.retval), state := s, trace := [call] }

/-- The answers of the collaborators during one call of `write`.
`waits`: the outcomes of the successive calls of `mEfGroup->wait`.
`peerDrain`: how many bytes the peer takes out of the data ring while the
caller waits.  `statusRead`: the record `mStatusMQ->read` stores, `none` when the
read fails and leaves the record as initialised.  `timeNow`: the clock reading
of `getCurrentTimeMs`. -/
structure WriteEnv where
  prepare : PrepareEnv
  waits : List WaitOutcome
  peerDrain : Nat
  statusRead : Option WriteStatus
  timeNow : timespec
  deriving DecidableEq, Repr

/-- The result of `write`: returned status, `*written` (`none` when it was never
assigned), the object afterwards and the calls made. -/
structure WriteRet where
  status : status_t
  written : Option Nat
  state : StreamOutHalHidl
  trace : List Event
  deriving DecidableEq, Repr

/-- The initial value of `writeStatus` on line 305. -/
def WriteStatus.init : WriteStatus :=
  { writeRetval := Result.NOT_INITIALIZED, written := 0
    presentationPositionRetval := Result.NOT_INITIALIZED, frames := 0
    timeStamp := { tvSec := 0, tvNSec := 0 } }

/-- Lines 300-327 of `StreamOutHalHidl::write`: the code from the label `retry`
to the end, run against the remaining outcomes of `wait`. -/
def writeWait (K : Externals) (s : StreamOutHalHidl) (env : WriteEnv) :
    List WaitOutcome → Except Fault WriteRet
  | [] => Except.error Fault.stillWaiting
  | w :: ws =>
    let waitEv := Event.wait K.NOT_FULL K.NS_PER_SEC
    if w.efState &&& K.NOT_FULL ≠ 0 then
      match s.mStatusMQ with
      | none => Except.error Fault.nullDeref
      | some _ =>
        let writeStatus := env.statusRead.getD WriteStatus.init
        if writeStatus.writeRetval = Result.OK then
          let st := K.processReturnResult writeStatus.presentationPositionRetval
          let p1 : PPosFromWrite := { s.mPPosFromWrite with status := st }
          let p2 : PPosFromWrite :=
            if st = K.OK then
              { p1 with
                frames := writeStatus.frames
                ts := writeStatus.timeStamp.toTimespec }
            else p1
          let p3 : PPosFromWrite := { p2 with obtained := getCurrentTimeMs env.timeNow }
          Except.ok
            { status := K.OK, written := some writeStatus.written
              state := { s with mPPosFromWrite := p3 }
              trace := [waitEv, Event.statusRead] }
        else
          Except.ok
            { status := K.processReturnResult writeStatus.writeRetval, written := some 0
              state := s, trace := [waitEv, Event.statusRead] }
    else if w.ret = -K.EAGAIN then
      match writeWait K s env ws with
      | Except.ok r => Except.ok { r with trace := waitEv :: r.trace }
      | Except.error e => Except.error e
    else
      Except.ok { status := w.ret, written := some 0, state := s, trace := [waitEv] }

/-- Lines 291-327 of `StreamOutHalHidl::write`: truncation to the free space,
the push into the data ring, the wake and the wait. -/
def writeTransfer (K : Externals) (s : StreamOutHalHidl) (bytes : Nat) (env : WriteEnv) :
    Except Fault WriteRet :=
  match s.mDataMQ with
  | none => Except.error Fault.nullDeref
  | some q =>
    let availBytes := q.availableToWrite
    let bytes := if bytes > availBytes then availBytes else bytes
    -- a false result of the ring write is only logged
    let q1 := (q.write bytes).2
    match s.mEfGroup with
    | none => Except.error Fault.nullDeref
    | some _ =>
      let s1 := { s with mDataMQ := some (q1.peerDrain env.peerDrain) }
      match writeWait K s1 env env.waits with
      | Except.ok r =>
        Except.ok { r with trace := Event.dataWrite bytes :: Event.wake K.NOT_EMPTY :: r.trace }
      | Except.error e => Except.error e

/-- The method `StreamOutHalHidl::write` (lines 276-328). -/
def write (K : Externals) (s : StreamOutHalHidl) (bytes : Nat) (env : WriteEnv) :
    Except Fault WriteRet :=
  if s.mStream = false then
    Except.ok { status := K.NO_INIT, written := none, state := s, trace := [] }
  else if bytes = 0 ∧ s.mDataMQ = none then
    Except.ok { status := K.OK, written := some 0, state := s, trace := [] }
  else
    match s.mDataMQ with
    | none =>
      let p := prepareForWriting K s bytes env.prepare
      if p.status ≠ K.OK then
        Except.ok { status := p.status, written := some 0, state := p.state, trace := p.trace }
      else
        match writeTransfer K p.state bytes env with
        | Except.ok r => Except.ok { r with trace := p.trace ++ r.trace }
        | Except.error e => Except.error e
    | some _ => writeTransfer K s bytes env

/-- What the callback of the remote call `getPresentationPosition` receives. -/
structure PositionReply where
  retval : Result
  frames : Nat
  timeStamp : TimeSpec
  deriving DecidableEq, Repr

/-- The answers of the collaborators during one call of `getPresentationPosition`:
the clock reading and the reply of the endpoint (`none`: the transaction failed
and the callback did not run). -/
structure PositionEnv where
  timeNow : timespec
  reply : Option PositionReply
  deriving DecidableEq, Repr

/-- The result of `getPresentationPosition`: returned status, `*frames` and
`*timestamp` (`none` when not assigned), the object afterwards, the calls made. -/
structure PositionRet where
  status : status_t
  frames : Option Nat
  timestamp : Option timespec
  state : StreamOutHalHidl
  trace : List Event
  deriving DecidableEq, Repr

/-- The method `StreamOutHalHidl::getPresentationPosition` (lines 444-471). -/
def getPresentationPosition (K : Externals) (s : StreamOutHalHidl) (env : PositionEnv) :
    PositionRet :=
  if s.mStream = false then
    { status := K.NO_INIT, frames := none, timestamp := none, state := s, trace := [] }
  else if s.mGetPresentationPositionNotSupported then
    { status := K.INVALID_OPERATION, frames := none, timestamp := none, state := s, trace := [] }
  else if u64sub (getCurrentTimeMs env.timeNow) s.mPPosFromWrite.obtained ≤ 1000 then
    if s.mPPosFromWrite.status = K.OK then
      { status := s.mPPosFromWrite.status
        frames := some s.mPPosFromWrite.frames
        timestamp := some s.mPPosFromWrite.ts
        state := s, trace := [] }
    else
      { status := s.mPPosFromWrite.status, frames := none, timestamp := none
        state := s, trace := [] }
  else
    match env.reply with
    | none =>
      { status := K.processReturn false none, frames := none, timestamp := none
        state := s, trace := [Event.getPresentationPosition] }
    | some rep =>
      { status := K.processReturn true (some rep.retval)
        frames := if rep.retval = Result.OK then some rep.frames else none
        timestamp := if rep.retval = Result.OK then some rep.timeStamp.toTimespec else none
        state :=
          if rep.retval = Result.NOT_SUPPORTED then
            { s with mGetPresentationPositionNotSupported := true }
          else s
        trace := [Event.getPresentationPosition] }

/-- The answers of the collaborators during one call of `read`.
`peerFill`: how many bytes the peer puts into the data ring while the caller
waits.  `statusRead`: the record `mStatusMQ->read` stores, `none` when the read
fails and leaves the record as initialised. -/
structure ReadEnv where
  prepare : PrepareEnv
  waits : List WaitOutcome
  peerFill : Nat
  statusRead : Option ReadStatus
  deriving DecidableEq, Repr

/-- The result of `read`.  `status` is the returned value; it is `none` when the
function returns the local `status` without ever having assigned it. -/
structure ReadRet where
  status : Option status_t
  read : Option Nat
  state : StreamInHalHidl
  trace : List Event
  deriving DecidableEq, Repr

/-- The initial value of `readStatus` on line 540. -/
def ReadStatus.init : ReadStatus := { retval := Result.NOT_INITIALIZED, read := 0 }

/-- Lines 536-560 of `StreamInHalHidl::read`: the code from the label `retry` to
the end.  `status` is the local variable of line 527, `none` while unassigned. -/
def readWait (K : Externals) (s : StreamInHalHidl) (bytes : Nat) (status : Option status_t)
    (env : ReadEnv) : List WaitOutcome → Except Fault ReadRet
  | [] => Except.error Fault.stillWaiting
  | w :: ws =>
    let waitEv := Event.wait K.NOT_EMPTY K.NS_PER_SEC
    if w.efState &&& K.NOT_EMPTY ≠ 0 then
      match s.mDataMQ, s.mStatusMQ with
      | some q, some _ =>
        let availToRead := q.availableToRead
        let bytes := if bytes > availToRead then availToRead else bytes
        let q1 := (q.read bytes).2
        let readStatus := env.statusRead.getD ReadStatus.init
        let tr := [waitEv, Event.dataRead bytes, Event.statusRead, Event.wake K.NOT_FULL]
        if readStatus.retval = Result.OK then
          Except.ok
            { status := status, read := some readStatus.read
              state := { s with mDataMQ := some q1 }, trace := tr }
        else
          Except.ok
            { status := some (K.processReturnResult readStatus.retval), read := some 0
              state := { s with mDataMQ := some q1 }, trace := tr }
      | _, _ => Except.error Fault.nullDeref
    else if w.ret = -K.EAGAIN then
      match readWait K s bytes status env ws with
      | Except.ok r => Except.ok { r with trace := waitEv :: r.trace }
      | Except.error e => Except.error e
    else
      Except.ok { status := some w.ret, read := some 0, state := s, trace := [waitEv] }

/-- Lines 534-560 of `StreamInHalHidl::read` on the object `s`: the peer fills
the ring while the caller is inside `wait`. -/
def readTransfer (K : Externals) (s : StreamInHalHidl) (bytes : Nat) (status : Option status_t)
    (env : ReadEnv) : Except Fault ReadRet :=
  match s.mEfGroup with
  | none => Except.error Fault.nullDeref
  | some _ =>
    let s1 := { s with mDataMQ := s.mDataMQ.map (fun q => q.peerFill env.peerFill) }
    readWait K s1 bytes status env env.waits

/-- The method `StreamInHalHidl::read` (lines 518-561). -/
def read (K : Externals) (s : StreamInHalHidl) (bytes : Nat) (env : ReadEnv) :
    Except Fault ReadRet :=
  if s.mStream = false then
    Except.ok { status := some K.NO_INIT, read := none, state := s, trace := [] }
  else if bytes = 0 ∧ s.mDataMQ = none then
    Except.ok { status := some K.OK, read := some 0, state := s, trace := [] }
  else
    match s.mDataMQ with
    | none =>
      let p := prepareForReading K s bytes env.prepare
      if p.status ≠ K.OK then
        Except.ok { status := some p.status, read := some 0, state := p.state, trace := p.trace }
      else
        match p.state.mEfGroup with
        | none => Except.error Fault.nullDeref
        | some _ =>
          match readTransfer K p.state bytes (some p.status) env with
          | Except.ok r =>
            Except.ok { r with trace := p.trace ++ Event.wake K.NOT_FULL :: r.trace }
          | Except.error e => Except.error e
    | some _ => readTransfer K s bytes none env

/-- An operation on an outbound session as seen from outside: a call of `write`, a
call of `getPresentationPosition`, or the peer taking bytes out of the data
ring between two calls. -/
inductive OutOp
  | write (bytes : Nat) (env : WriteEnv)
  | getPresentationPosition (env : PositionEnv)
  | peerDrain (n : Nat)
  deriving DecidableEq, Repr

/-- The object after one operation, and the calls the operation made. -/
def stepOut (K : Externals) (s : StreamOutHalHidl) : OutOp → Except Fault (StreamOutHalHidl × List Event)
  | OutOp.write bytes env =>
    match write K s bytes env with
    | Except.ok r => Except.ok (r.state, r.trace)
    | Except.error e => Except.error e
  | OutOp.getPresentationPosition env =>
    let r := getPresentationPosition K s env
    Except.ok (r.state, r.trace)
  | OutOp.peerDrain n =>
    Except.ok ({ s with mDataMQ := s.mDataMQ.map (fun q => q.peerDrain n) }, [])

/-- The object after a sequence of operations, and all the calls made. -/
def runOut (K : Externals) : StreamOutHalHidl → List OutOp → Except Fault (StreamOutHalHidl × List Event)
  | s, [] => Except.ok (s, [])
  | s, op :: ops =>
    match stepOut K s op with
    | Except.ok (s1, tr) =>
      match runOut K s1 ops with
      | Except.ok (s2, tr2) => Except.ok (s2, tr ++ tr2)
      | Except.error e => Except.error e
    | Except.error e => Except.error e

/-- The number of bytes pushed into the data ring by the calls of a trace. -/
def pushedBytes : List Event → Nat
  | [] => 0
  | Event.dataWrite n :: tr => n + pushedBytes tr
  | _ :: tr => pushedBytes tr

/-- The number of calls of `mEfGroup->wait` in a trace. -/
def waitCount : List Event → Nat
  | [] => 0
  | Event.wait _ _ :: tr => 1 + waitCount tr
  | _ :: tr => waitCount tr

/-- The number of remote calls (round trips to the endpoint) in a trace. -/
def roundTrips : List Event → Nat
  | [] => 0
  | Event.prepareForWriting _ _ _ :: tr => 1 + roundTrips tr
  | Event.prepareForReading _ _ _ :: tr => 1 + roundTrips tr
  | Event.getPresentationPosition :: tr => 1 + roundTrips tr
  | _ :: tr => roundTrips tr

/-- All three of data queue, status queue and event flag are present. -/
def StreamOutHalHidl.established (s : StreamOutHalHidl) : Prop :=
  s.mDataMQ.isSome = true ∧ s.mStatusMQ.isSome = true ∧ s.mEfGroup.isSome = true

/-- All three of data queue, status queue and event flag are present. -/
def StreamInHalHidl.established (s : StreamInHalHidl) : Prop :=
  s.mDataMQ.isSome = true ∧ s.mStatusMQ.isSome = true ∧ s.mEfGroup.isSome = true

instance (s : StreamOutHalHidl) : Decidable s.established := by
  unfold StreamOutHalHidl.established; infer_instance

instance (s : StreamInHalHidl) : Decidable s.established := by
  unfold StreamInHalHidl.established; infer_instance

/-- An outcome of `wait` that sends the code back to `retry`: the awaited bit is
not in `efState` and the returned status is `-EAGAIN`. -/
def WaitOutcome.isRetry (K : Externals) (flag : Nat) (w : WaitOutcome) : Prop :=
  w.efState &&& flag = 0 ∧ w.ret = -K.EAGAIN

instance (K : Externals) (flag : Nat) (w : WaitOutcome) : Decidable (w.isRetry K flag) := by
  unfold WaitOutcome.isRetry; infer_instance

/-- The values the names of `Externals` have on Android (`utils/Errors.h`,
`errno.h`, `types.hal`, `ConversionHelperHidl.cpp`); used for concrete runs. -/
def android : Externals :=
  { OK := 0
    NO_INIT := -19
    INVALID_OPERATION := -38
    EAGAIN := 11
    NOT_EMPTY := 1
    NOT_FULL := 2
    NS_PER_SEC := 1000000000
    THREAD_PRIORITY_NORMAL := 0
    processReturnResult := fun r =>
      match r with
      | Result.OK => 0
      | Result.INVALID_ARGUMENTS => -22
      | Result.INVALID_STATE => -61
      | Result.NOT_INITIALIZED => -19
      | Result.NOT_SUPPORTED => -38
    processReturn := fun ok r =>
      match ok, r with
      | true, some Result.OK => 0
      | true, some Result.INVALID_ARGUMENTS => -22
      | true, some Result.INVALID_STATE => -61
      | true, some Result.NOT_INITIALIZED => -19
      | true, some Result.NOT_SUPPORTED => -38
      | _, _ => -2147483646 }

/-! ## Concrete sessions and answers, used to run the definitions -/

/-- A valid data queue of 4096 bytes, empty, with an event flag word. -/
def ring4096 : DataMQ := { isValid := true, eventFlagWord := true, capacity := 4096, level := 0 }

/-- A negotiation that succeeds and hands out `ring4096`. -/
def prepareGood : PrepareEnv :=
  { reply := some { retval := Result.OK, dataMQ := ring4096, statusMQ := { isValid := true } }
    createEventFlag := some EventFlag.mk }

/-- A fresh outbound session with the endpoint present. -/
def freshOut : StreamOutHalHidl := StreamOutHalHidl.create android true

/-- An outbound session whose channel over `ring4096` is established. -/
def readyOut : StreamOutHalHidl :=
  { freshOut with
    mDataMQ := some ring4096, mStatusMQ := some { isValid := true }, mEfGroup := some EventFlag.mk }

/-- A status record that reports 4096 bytes written and a position. -/
def status4096 : WriteStatus :=
  { writeRetval := Result.OK, written := 4096, presentationPositionRetval := Result.OK
    frames := 1024, timeStamp := { tvSec := 12, tvNSec := 500 } }

/-- The peer drains the ring, signals `NOT_FULL` at the first wait and reports
`status4096`; the clock reads 100 s. -/
def envDrained : WriteEnv :=
  { prepare := prepareGood
    waits := [{ ret := 0, efState := 2 }]
    peerDrain := 4096
    statusRead := some status4096
    timeNow := { tv_sec := 100, tv_nsec := 0 } }

/-- The first two waits return `-EAGAIN` without a flag, the third observes
`NOT_FULL`. -/
def envTwoRetries : WriteEnv :=
  { envDrained with
    waits := [{ ret := -11, efState := 0 }, { ret := -11, efState := 0 }, { ret := 0, efState := 2 }] }

/-- The peer never signals: the wait returns `-ETIMEDOUT` with no flag. -/
def envTimeout : WriteEnv :=
  { prepare := prepareGood
    waits := [{ ret := -110, efState := 0 }]
    peerDrain := 0
    statusRead := none
    timeNow := { tv_sec := 100, tv_nsec := 0 } }

/-- The peer signals `NOT_FULL` but its record reports `INVALID_STATE` together
with a byte count of 512. -/
def envRejected : WriteEnv :=
  { envDrained with
    statusRead := some { status4096 with writeRetval := Result.INVALID_STATE, written := 512 } }

/-- A fresh inbound session with the endpoint present. -/
def freshIn : StreamInHalHidl := StreamInHalHidl.create android true

/-- An inbound session whose channel over `ring4096` was established by an earlier
call of `read`. -/
def readyIn : StreamInHalHidl :=
  { freshIn with
    mDataMQ := some ring4096, mStatusMQ := some { isValid := true }, mEfGroup := some EventFlag.mk }

/-- The peer puts 256 bytes into the ring, signals `NOT_EMPTY` at the first wait
and reports 256 bytes read with result `OK`. -/
def envFilled : ReadEnv :=
  { prepare := prepareGood
    waits := [{ ret := 0, efState := 1 }]
    peerFill := 256
    statusRead := some { retval := Result.OK, read := 256 } }

/-- As `envFilled`, after two waits that return `-EAGAIN` without a flag. -/
def envFilledTwoRetries : ReadEnv :=
  { envFilled with
    waits := [{ ret := -11, efState := 0 }, { ret := -11, efState := 0 }, { ret := 0, efState := 1 }] }

/-- As `envFilled`, but the record of the peer reports 100 bytes read while the
ring holds 256. -/
def envFilledMismatch : ReadEnv :=
  { envFilled with statusRead := some { retval := Result.OK, read := 100 } }

/-- The peer signals `NOT_FULL` and reports success, but takes nothing out of the
data ring. -/
def envNoDrain : WriteEnv := { envDrained with peerDrain := 0 }

/-- A position query 400 microseconds after the clock reading of `envDrained`;
the endpoint would answer with other values. -/
def envSoon : PositionEnv :=
  { timeNow := { tv_sec := 100, tv_nsec := 400000 }
    reply := some { retval := Result.OK, frames := 9999, timeStamp := { tvSec := 77, tvNSec := 1 } } }

/-- A position query 900 microseconds after the clock reading of `envDrained`. -/
def envSoonAgain : PositionEnv := { envSoon with timeNow := { tv_sec := 100, tv_nsec := 900000 } }

/-- A position query at 5 s; the endpoint reports 1234 frames. -/
def envLate : PositionEnv :=
  { timeNow := { tv_sec := 5, tv_nsec := 0 }
    reply := some { retval := Result.OK, frames := 1234, timeStamp := { tvSec := 7, tvNSec := 8 } } }

/-- A position query at 5 s; the endpoint reports `INVALID_STATE`. -/
def envLateFailing : PositionEnv :=
  { timeNow := { tv_sec := 5, tv_nsec := 0 }
    reply := some { retval := Result.INVALID_STATE, frames := 0, timeStamp := { tvSec := 0, tvNSec := 0 } } }

/-- A position query at 5 s; the endpoint reports `NOT_SUPPORTED`. -/
def envUnsupported : PositionEnv :=
  { timeNow := { tv_sec := 5, tv_nsec := 0 }
    reply := some { retval := Result.NOT_SUPPORTED, frames := 0, timeStamp := { tvSec := 0, tvNSec := 0 } } }

/-- The endpoint answers `OK` with a valid data queue that has an event flag word
and with an invalid status queue; the event flag is created. -/
def prepareStatusInvalid : PrepareEnv :=
  { reply := some { retval := Result.OK, dataMQ := ring4096, statusMQ := { isValid := false } }
    createEventFlag := some EventFlag.mk }

/-- What the streaming code relies on about the names of `Externals`: the
statuses a negotiation returns on its failure paths are not `OK`. -/
structure Externals.Sane (K : Externals) : Prop where
  /-- The status `NO_INIT` is not `OK`. -/
  no_init_ne_ok : K.NO_INIT ≠ K.OK
  /-- A failed transaction is not mapped to `OK`. -/
  transport_ne_ok : K.processReturn false none ≠ K.OK
  /-- A result other than `Result::OK` is not mapped to `OK`. -/
  result_ne_ok : ∀ r : Result, r ≠ Result.OK → K.processReturn true (some r) ≠ K.OK

/-- The channel invariant of an outbound session: with the data queue present,
status queue and event flag are present too. -/
def StreamOutHalHidl.channelInv (s : StreamOutHalHidl) : Prop :=
  s.mDataMQ.isSome = true → s.mStatusMQ.isSome = true ∧ s.mEfGroup.isSome = true

/-- The channel invariant of an inbound session. -/
def StreamInHalHidl.channelInv (s : StreamInHalHidl) : Prop :=
  s.mDataMQ.isSome = true → s.mStatusMQ.isSome = true ∧ s.mEfGroup.isSome = true

/-- The states of an outbound session that can be reached from construction:
by calls of `write` that return, by calls of `getPresentationPosition`, by a
negotiation (the private method `prepareForWriting`, whose only call, on line
287, is made while `mDataMQ` is null) and by the peer emptying the ring. -/
inductive ReachableOut (K : Externals) : StreamOutHalHidl → Prop
  | create (stream : Bool) : ReachableOut K (StreamOutHalHidl.create K stream)
  | write (s : StreamOutHalHidl) (bytes : Nat) (env : WriteEnv) (r : WriteRet) :
      ReachableOut K s → write K s bytes env = Except.ok r → ReachableOut K r.state
  | getPresentationPosition (s : StreamOutHalHidl) (env : PositionEnv) :
      ReachableOut K s → ReachableOut K (getPresentationPosition K s env).state
  | prepareForWriting (s : StreamOutHalHidl) (bufferSize : Nat) (env : PrepareEnv) :
      ReachableOut K s → s.mDataMQ = none →
      ReachableOut K (prepareForWriting K s bufferSize env).state
  | peerDrain (s : StreamOutHalHidl) (n : Nat) :
      ReachableOut K s →
      ReachableOut K { s with mDataMQ := s.mDataMQ.map (fun q => q.peerDrain n) }

/-- The states of an inbound session that can be reached from construction: by
calls of `read` that return, by a negotiation (the private method
`prepareForReading`, whose only call, on line 529, is made while `mDataMQ` is
null) and by the peer filling the ring. -/
inductive ReachableIn (K : Externals) : StreamInHalHidl → Prop
  | create (stream : Bool) : ReachableIn K (StreamInHalHidl.create K stream)
  | read (s : StreamInHalHidl) (bytes : Nat) (env : ReadEnv) (r : ReadRet) :
      ReachableIn K s → read K s bytes env = Except.ok r → ReachableIn K r.state
  | prepareForReading (s : StreamInHalHidl) (bufferSize : Nat) (env : PrepareEnv) :
      ReachableIn K s → s.mDataMQ = none →
      ReachableIn K (prepareForReading K s bufferSize env).state
  | peerFill (s : StreamInHalHidl) (n : Nat) :
      ReachableIn K s →
      ReachableIn K { s with mDataMQ := s.mDataMQ.map (fun q => q.peerFill n) }

/-- The outbound session after `write` of 6000 bytes with the answers of
`envDrained` on the fresh session. -/
def afterFirstWrite : StreamOutHalHidl :=
  { readyOut with
    mPPosFromWrite :=
      { obtained := 100000000, status := 0, frames := 1024
        ts := { tv_sec := 12, tv_nsec := 500 } } }

/-! ## Auxiliary facts -/

/-- A value below `2^63` survives the conversion to `long`. -/
theorem toLong_of_lt (n : Nat) (h : n < 2 ^ 63) : toLong n = (n : Int) := by
  unfold toLong
  have h1 : n % 2 ^ 64 = n := Nat.mod_eq_of_lt (by omega)
  rw [h1, if_pos h]

/-- For a clock that did not run backwards the wrapped difference is the elapsed
time. -/
theorem u64sub_of_le (a b : Nat) (ha : a < 2 ^ 64) (hb : b ≤ a) : u64sub a b = a - b := by
  unfold u64sub
  have h1 : a % 2 ^ 64 = a := Nat.mod_eq_of_lt ha
  have h2 : b % 2 ^ 64 = b := Nat.mod_eq_of_lt (by omega)
  rw [h1, h2]
  have h3 : a + (2 ^ 64 - b) = (a - b) + 2 ^ 64 := by omega
  rw [h3, Nat.add_mod_right]
  exact Nat.mod_eq_of_lt (by omega)

/-- The clock value is a `uint64_t`. -/
theorem getCurrentTimeMs_lt (t : timespec) : getCurrentTimeMs t < 2 ^ 64 := by
  unfold getCurrentTimeMs
  have h := Int.emod_lt_of_pos (t.tv_sec * 1000000 + Int.tdiv t.tv_nsec 1000)
    (show (0 : Int) < 2 ^ 64 by norm_num)
  have h0 := Int.emod_nonneg (t.tv_sec * 1000000 + Int.tdiv t.tv_nsec 1000)
    (show (2 ^ 64 : Int) ≠ 0 by norm_num)
  omega

/-- Negotiation leaves the cached position, the latch and the endpoint alone. -/
theorem prepareForWriting_keeps (K : Externals) (s : StreamOutHalHidl) (n : Nat)
    (env : PrepareEnv) :
    (prepareForWriting K s n env).state.mPPosFromWrite = s.mPPosFromWrite ∧
    (prepareForWriting K s n env).state.mGetPresentationPositionNotSupported
      = s.mGetPresentationPositionNotSupported ∧
    (prepareForWriting K s n env).state.mStream = s.mStream := by
  unfold prepareForWriting
  cases env.reply with
  | none => simp
  | some rep =>
    simp only []
    split_ifs <;> simp

/-- Retry outcomes in front of the script only add calls of `wait`. -/
theorem writeWait_retries (K : Externals) (s : StreamOutHalHidl) (env : WriteEnv)
    (pre ws : List WaitOutcome) (hpre : ∀ x ∈ pre, x.isRetry K K.NOT_FULL) :
    writeWait K s env (pre ++ ws) =
      match writeWait K s env ws with
      | Except.ok r =>
        Except.ok { r with
          trace := List.replicate pre.length (Event.wait K.NOT_FULL K.NS_PER_SEC) ++ r.trace }
      | Except.error e => Except.error e := by
  induction pre with
  | nil =>
    simp only [List.nil_append]
    cases writeWait K s env ws <;> simp
  | cons x xs ih =>
    have hx : x.isRetry K K.NOT_FULL := hpre x (List.mem_cons_self _ _)
    have hxs : ∀ y ∈ xs, y.isRetry K K.NOT_FULL := fun y hy => hpre y (List.mem_cons_of_mem _ hy)
    obtain ⟨hx1, hx2⟩ := hx
    rw [List.cons_append, writeWait, ih hxs]
    cases writeWait K s env ws <;> simp [hx1, hx2, List.replicate_succ]

/-- The loop of `write` at an outcome that carries `NOT_FULL`, when the popped
record reports success. -/
theorem writeWait_flag_ok (K : Externals) (s : StreamOutHalHidl) (env : WriteEnv)
    (w : WaitOutcome) (ws : List WaitOutcome) (q : StatusMQ) (rec : WriteStatus)
    (hq : s.mStatusMQ = some q) (hflag : w.efState &&& K.NOT_FULL ≠ 0)
    (hrec : env.statusRead = some rec) (hok : rec.writeRetval = Result.OK) :
    writeWait K s env (w :: ws) =
      Except.ok
        { status := K.OK, written := some rec.written
          state := { s with
            mPPosFromWrite :=
              { obtained := getCurrentTimeMs env.timeNow
                status := K.processReturnResult rec.presentationPositionRetval
                frames :=
                  if K.processReturnResult rec.presentationPositionRetval = K.OK then rec.frames
                  else s.mPPosFromWrite.frames
                ts :=
                  if K.processReturnResult rec.presentationPositionRetval = K.OK then
                    rec.timeStamp.toTimespec
                  else s.mPPosFromWrite.ts } }
          trace := [Event.wait K.NOT_FULL K.NS_PER_SEC, Event.statusRead] } := by
  by_cases hp : K.processReturnResult rec.presentationPositionRetval = K.OK <;>
    simp [writeWait, hflag, hq, hrec, hok, hp]

/-- The truncation of lines 291-292 is the minimum with the free space. -/
theorem truncate_eq_min (bytes avail : Nat) :
    (if bytes > avail then avail else bytes) = min bytes avail := by
  split <;> omega

/-- The transfer part of `write` on an established channel, when the wait ends
with `NOT_FULL` and the popped record reports success. -/
theorem writeTransfer_ok (K : Externals) (s : StreamOutHalHidl) (bytes : Nat) (env : WriteEnv)
    (pre rest : List WaitOutcome) (w : WaitOutcome) (rec : WriteStatus)
    (q : DataMQ) (sq : StatusMQ) (e : EventFlag)
    (hd : s.mDataMQ = some q) (hs : s.mStatusMQ = some sq) (he : s.mEfGroup = some e)
    (hwaits : env.waits = pre ++ w :: rest)
    (hpre : ∀ x ∈ pre, x.isRetry K K.NOT_FULL)
    (hflag : w.efState &&& K.NOT_FULL ≠ 0)
    (hrec : env.statusRead = some rec) (hok : rec.writeRetval = Result.OK) :
    writeTransfer K s bytes env =
      Except.ok
        { status := K.OK, written := some rec.written
          state := { s with
            mDataMQ :=
              some ((q.write (min bytes q.availableToWrite)).2.peerDrain env.peerDrain)
            mPPosFromWrite :=
              { obtained := getCurrentTimeMs env.timeNow
                status := K.processReturnResult rec.presentationPositionRetval
                frames :=
                  if K.processReturnResult rec.presentationPositionRetval = K.OK then rec.frames
                  else s.mPPosFromWrite.frames
                ts :=
                  if K.processReturnResult rec.presentationPositionRetval = K.OK then
                    rec.timeStamp.toTimespec
                  else s.mPPosFromWrite.ts } }
          trace :=
            Event.dataWrite (min bytes q.availableToWrite) :: Event.wake K.NOT_EMPTY ::
              (List.replicate pre.length (Event.wait K.NOT_FULL K.NS_PER_SEC) ++
                [Event.wait K.NOT_FULL K.NS_PER_SEC, Event.statusRead]) } := by
  unfold writeTransfer
  simp only [hd, he, hwaits, truncate_eq_min]
  rw [writeWait_retries K _ env pre (w :: rest) hpre,
    writeWait_flag_ok K _ env w rest sq rec (by simpa using hs) hflag hrec hok]

/-- C1. A call of `write` with the endpoint present, on a channel that is
established or is negotiated successfully by this call, in which the wait ends
with `NOT_FULL` observed (after any number of retry outcomes) and the record
popped from the status queue has write result `OK`: the call returns `OK`,
`*written` is the `written` field of the record whatever the position result
of the record is, the cached position gets the current time as `obtained` and
the mapped position result as `status`; when that mapped result is `OK` the
cached frames and timestamp are those of the record (the timestamp numerically
so when its fields are below `2^63`), otherwise they stay as they were. -/
theorem write_success_from_status_record (K : Externals) (s : StreamOutHalHidl) (bytes : Nat)
    (env : WriteEnv) (pre rest : List WaitOutcome) (w : WaitOutcome) (rec : WriteStatus)
    (hstream : s.mStream = true)
    (hchan : s.established ∨
      (s.mDataMQ = none ∧ bytes ≠ 0 ∧
        (prepareForWriting K s bytes env.prepare).status = K.OK ∧
        (prepareForWriting K s bytes env.prepare).state.established))
    (hwaits : env.waits = pre ++ w :: rest)
    (hpre : ∀ x ∈ pre, x.isRetry K K.NOT_FULL)
    (hflag : w.efState &&& K.NOT_FULL ≠ 0)
    (hrec : env.statusRead = some rec) (hok : rec.writeRetval = Result.OK) :
    ∃ r, write K s bytes env = Except.ok r ∧
      r.status = K.OK ∧ r.written = some rec.written ∧
      r.state.mPPosFromWrite.obtained = getCurrentTimeMs env.timeNow ∧
      r.state.mPPosFromWrite.status = K.processReturnResult rec.presentationPositionRetval ∧
      (K.processReturnResult rec.presentationPositionRetval = K.OK →
        r.state.mPPosFromWrite.frames = rec.frames ∧
        r.state.mPPosFromWrite.ts = rec.timeStamp.toTimespec ∧
        (rec.timeStamp.tvSec < 2 ^ 63 → rec.timeStamp.tvNSec < 2 ^ 63 →
          r.state.mPPosFromWrite.ts =
            { tv_sec := (rec.timeStamp.tvSec : Int), tv_nsec := (rec.timeStamp.tvNSec : Int) })) ∧
      (K.processReturnResult rec.presentationPositionRetval ≠ K.OK →
        r.state.mPPosFromWrite.frames = s.mPPosFromWrite.frames ∧
        r.state.mPPosFromWrite.ts = s.mPPosFromWrite.ts) := by
  have key : ∀ (s1 : StreamOutHalHidl), s1.established →
      s1.mPPosFromWrite = s.mPPosFromWrite →
      ∃ r, writeTransfer K s1 bytes env = Except.ok r ∧
        r.status = K.OK ∧ r.written = some rec.written ∧
        r.state.mPPosFromWrite.obtained = getCurrentTimeMs env.timeNow ∧
        r.state.mPPosFromWrite.status = K.processReturnResult rec.presentationPositionRetval ∧
        (K.processReturnResult rec.presentationPositionRetval = K.OK →
          r.state.mPPosFromWrite.frames = rec.frames ∧
          r.state.mPPosFromWrite.ts = rec.timeStamp.toTimespec ∧
          (rec.timeStamp.tvSec < 2 ^ 63 → rec.timeStamp.tvNSec < 2 ^ 63 →
            r.state.mPPosFromWrite.ts =
              { tv_sec := (rec.timeStamp.tvSec : Int)
                tv_nsec := (rec.timeStamp.tvNSec : Int) })) ∧
        (K.processReturnResult rec.presentationPositionRetval ≠ K.OK →
          r.state.mPPosFromWrite.frames = s.mPPosFromWrite.frames ∧
          r.state.mPPosFromWrite.ts = s.mPPosFromWrite.ts) := by
    intro s1 hest hpp
    obtain ⟨h1, h2, h3⟩ := hest
    obtain ⟨q, hq⟩ := Option.isSome_iff_exists.mp h1
    obtain ⟨sq, hsq⟩ := Option.isSome_iff_exists.mp h2
    obtain ⟨e, he⟩ := Option.isSome_iff_exists.mp h3
    refine ⟨_, writeTransfer_ok K s1 bytes env pre rest w rec q sq e hq hsq he hwaits hpre hflag
      hrec hok, rfl, rfl, rfl, rfl, ?_, ?_⟩
    · intro hp
      refine ⟨by simp [hp], by simp [hp], ?_⟩
      intro hsec hnsec
      simp [hp, TimeSpec.toTimespec, toLong_of_lt _ hsec, toLong_of_lt _ hnsec]
    · intro hp
      simp [hp, hpp]
  rcases hchan with hest | ⟨hnone, hbytes, hst, hest⟩
  · obtain ⟨r, hr, rest'⟩ := key s hest rfl
    refine ⟨r, ?_, rest'⟩
    obtain ⟨q, hq⟩ := Option.isSome_iff_exists.mp hest.1
    unfold write
    simp [hstream, hq, hr]
  · obtain ⟨r, hr, h1, h2, h3, h4, h5, h6⟩ :=
      key _ hest (prepareForWriting_keeps K s bytes env.prepare).1
    refine ⟨{ r with trace := (prepareForWriting K s bytes env.prepare).trace ++ r.trace }, ?_,
      h1, h2, h3, h4, h5, h6⟩
    unfold write
    simp [hstream, hnone, hbytes, hst, hr]

/-- C2. With the endpoint present and no data queue, `write` of zero bytes
returns `OK` with `*written = 0`, makes no call at all to a collaborator (no
negotiation, no ring write, no wake, no wait) and returns the object as it
was, so data queue, status queue and event flag are as absent as before. -/
theorem write_zero_bytes_without_channel (K : Externals) (s : StreamOutHalHidl)
    (env : WriteEnv) (hstream : s.mStream = true) (hdata : s.mDataMQ = none) :
    write K s 0 env = Except.ok { status := K.OK, written := some 0, state := s, trace := [] } ∧
      (s.mStatusMQ = none → s.mEfGroup = none →
        ∀ r, write K s 0 env = Except.ok r →
          r.state.mDataMQ = none ∧ r.state.mStatusMQ = none ∧ r.state.mEfGroup = none) := by
  have h : write K s 0 env =
      Except.ok { status := K.OK, written := some 0, state := s, trace := [] } := by
    unfold write
    simp [hstream, hdata]
  refine ⟨h, ?_⟩
  intro h1 h2 r hr
  rw [h] at hr
  cases hr
  exact ⟨hdata, h1, h2⟩

/-- A run of C1: a write of 6000 bytes on the established 4096-byte channel. -/
theorem write_success_from_status_record_witness :
    ∃ r, write android readyOut 6000 envDrained = Except.ok r ∧
      r.status = android.OK ∧ r.written = some status4096.written ∧
      r.state.mPPosFromWrite.obtained = getCurrentTimeMs envDrained.timeNow ∧
      r.state.mPPosFromWrite.status
        = android.processReturnResult status4096.presentationPositionRetval ∧
      (android.processReturnResult status4096.presentationPositionRetval = android.OK →
        r.state.mPPosFromWrite.frames = status4096.frames ∧
        r.state.mPPosFromWrite.ts = status4096.timeStamp.toTimespec ∧
        (status4096.timeStamp.tvSec < 2 ^ 63 → status4096.timeStamp.tvNSec < 2 ^ 63 →
          r.state.mPPosFromWrite.ts =
            { tv_sec := (status4096.timeStamp.tvSec : Int)
              tv_nsec := (status4096.timeStamp.tvNSec : Int) })) ∧
      (android.processReturnResult status4096.presentationPositionRetval ≠ android.OK →
        r.state.mPPosFromWrite.frames = readyOut.mPPosFromWrite.frames ∧
        r.state.mPPosFromWrite.ts = readyOut.mPPosFromWrite.ts) :=
  write_success_from_status_record android readyOut 6000 envDrained [] []
    { ret := 0, efState := 2 } status4096 rfl (Or.inl (by decide)) rfl
    (by intro x hx; cases hx) (by decide) rfl rfl

/-- A run of C2 on the fresh session. -/
theorem write_zero_bytes_without_channel_witness :
    write android freshOut 0 envDrained
        = Except.ok { status := android.OK, written := some 0, state := freshOut, trace := [] } ∧
      (freshOut.mStatusMQ = none → freshOut.mEfGroup = none →
        ∀ r, write android freshOut 0 envDrained = Except.ok r →
          r.state.mDataMQ = none ∧ r.state.mStatusMQ = none ∧ r.state.mEfGroup = none) :=
  write_zero_bytes_without_channel android freshOut envDrained rfl rfl

/-- Whenever the loop of `write` returns a status other than `OK`, `*written`
is still the zero of line 278. -/
theorem writeWait_written (K : Externals) (s : StreamOutHalHidl) (env : WriteEnv) :
    ∀ (ws : List WaitOutcome) (r : WriteRet), writeWait K s env ws = Except.ok r →
      r.status ≠ K.OK → r.written = some 0 := by
  intro ws
  induction ws with
  | nil => intro r h; simp [writeWait] at h
  | cons w ws ih =>
    intro r h hne
    rw [writeWait] at h
    by_cases hflag : w.efState &&& K.NOT_FULL ≠ 0
    · rw [if_pos hflag] at h
      cases hs : s.mStatusMQ with
      | none => simp [hs] at h
      | some sq =>
        simp only [hs] at h
        by_cases hok : (env.statusRead.getD WriteStatus.init).writeRetval = Result.OK
        · rw [if_pos hok] at h
          cases h
          exact absurd rfl hne
        · rw [if_neg hok] at h
          cases h
          rfl
    · rw [if_neg hflag] at h
      by_cases hret : w.ret = -K.EAGAIN
      · rw [if_pos hret] at h
        cases hrec : writeWait K s env ws with
        | error e => simp [hrec] at h
        | ok r1 =>
          simp only [hrec] at h
          cases h
          exact ih r1 hrec hne
      · rw [if_neg hret] at h
        cases h
        rfl

/-- What the loop of `write` can do on an object whose status queue is present:
it is still waiting when the script ends, or it returns; then the calls it made
are waits and at most a pop of the status queue, and only the cached position
of the object may differ. -/
theorem writeWait_sound (K : Externals) (s : StreamOutHalHidl) (env : WriteEnv)
    (sq : StatusMQ) (hs : s.mStatusMQ = some sq) :
    ∀ ws : List WaitOutcome,
      writeWait K s env ws = Except.error Fault.stillWaiting ∨
      ∃ r, writeWait K s env ws = Except.ok r ∧
        (∀ ev ∈ r.trace, ev = Event.wait K.NOT_FULL K.NS_PER_SEC ∨ ev = Event.statusRead) ∧
        r.state.mStream = s.mStream ∧ r.state.mDataMQ = s.mDataMQ ∧
        r.state.mStatusMQ = s.mStatusMQ ∧ r.state.mEfGroup = s.mEfGroup ∧
        r.state.mGetPresentationPositionNotSupported = s.mGetPresentationPositionNotSupported := by
  intro ws
  induction ws with
  | nil => left; rfl
  | cons w ws ih =>
    rw [writeWait]
    by_cases hflag : w.efState &&& K.NOT_FULL ≠ 0
    · right
      rw [if_pos hflag]
      simp only [hs]
      by_cases hok : (env.statusRead.getD WriteStatus.init).writeRetval = Result.OK
      · rw [if_pos hok]
        exact ⟨_, rfl, by simp, rfl, rfl, rfl, rfl, rfl⟩
      · rw [if_neg hok]
        exact ⟨_, rfl, by simp, rfl, rfl, hs, rfl, rfl⟩
    · rw [if_neg hflag]
      by_cases hret : w.ret = -K.EAGAIN
      · rw [if_pos hret]
        rcases ih with h | ⟨r1, h, htr, h1, h2, h3, h4, h5⟩
        · left; simp [h]
        · right
          refine ⟨{ r1 with trace := Event.wait K.NOT_FULL K.NS_PER_SEC :: r1.trace }, by simp [h],
            ?_, h1, h2, h3, h4, h5⟩
          intro ev hev
          rcases List.mem_cons.mp hev with h0 | h0
          · exact Or.inl h0
          · exact htr ev h0
      · right
        rw [if_neg hret]
        exact ⟨_, rfl, by simp, rfl, rfl, rfl, rfl, rfl⟩

/-- The loop of `write` at an outcome that does not send it back to `retry`: it
returns after this one wait. -/
theorem writeWait_final (K : Externals) (s : StreamOutHalHidl) (env : WriteEnv)
    (sq : StatusMQ) (hs : s.mStatusMQ = some sq) (w : WaitOutcome) (rest : List WaitOutcome)
    (hw : ¬ w.isRetry K K.NOT_FULL) :
    ∃ r, writeWait K s env (w :: rest) = Except.ok r ∧ waitCount r.trace = 1 := by
  rw [writeWait]
  by_cases hflag : w.efState &&& K.NOT_FULL ≠ 0
  · rw [if_pos hflag]
    simp only [hs]
    by_cases hok : (env.statusRead.getD WriteStatus.init).writeRetval = Result.OK
    · rw [if_pos hok]; exact ⟨_, rfl, rfl⟩
    · rw [if_neg hok]; exact ⟨_, rfl, rfl⟩
  · rw [if_neg hflag]
    have hret : w.ret ≠ -K.EAGAIN := fun h => hw ⟨not_not.mp hflag, h⟩
    rw [if_neg hret]
    exact ⟨_, rfl, rfl⟩

/-- The loop of `write` on a script of retry outcomes only never returns. -/
theorem writeWait_all_retries (K : Externals) (s : StreamOutHalHidl) (env : WriteEnv) :
    ∀ ws : List WaitOutcome, (∀ x ∈ ws, x.isRetry K K.NOT_FULL) →
      writeWait K s env ws = Except.error Fault.stillWaiting := by
  intro ws
  induction ws with
  | nil => intro _; rfl
  | cons w ws ih =>
    intro h
    obtain ⟨h1, h2⟩ := h w (List.mem_cons_self _ _)
    rw [writeWait, ih (fun x hx => h x (List.mem_cons_of_mem _ hx))]
    simp [h1, h2]

/-- Counting the waits of a block of waits followed by a trace. -/
theorem waitCount_replicate (n : Nat) (a b : Nat) (tr : List Event) :
    waitCount (List.replicate n (Event.wait a b) ++ tr) = n + waitCount tr := by
  induction n with
  | zero => simp
  | succ k ih =>
    rw [List.replicate_succ, List.cons_append, waitCount, ih]
    omega

/-- With a data queue present, `write` is its transfer part. -/
theorem write_of_data (K : Externals) (s : StreamOutHalHidl) (bytes : Nat) (env : WriteEnv)
    (q : DataMQ) (hstream : s.mStream = true) (hd : s.mDataMQ = some q) :
    write K s bytes env = writeTransfer K s bytes env := by
  unfold write
  simp [hstream, hd]

/-- Waits and pops of the status queue are not round trips to the endpoint. -/
theorem roundTrips_of_waits (a b : Nat) :
    ∀ tr : List Event, (∀ ev ∈ tr, ev = Event.wait a b ∨ ev = Event.statusRead) →
      roundTrips tr = 0 := by
  intro tr
  induction tr with
  | nil => intro _; rfl
  | cons ev tr ih =>
    intro h
    have htl := ih (fun x hx => h x (List.mem_cons_of_mem _ hx))
    rcases h ev (List.mem_cons_self _ _) with h0 | h0 <;> subst h0 <;> simpa [roundTrips] using htl

/-- The transfer part of `write` with data queue and event flag present: push,
wake, then the loop on the object that holds the ring after the push and after
what the peer took out. -/
theorem writeTransfer_eq (K : Externals) (s : StreamOutHalHidl) (bytes : Nat) (env : WriteEnv)
    (q : DataMQ) (e : EventFlag) (hd : s.mDataMQ = some q) (he : s.mEfGroup = some e) :
    writeTransfer K s bytes env =
      match writeWait K
        { s with
          mDataMQ :=
            some ((q.write (min bytes q.availableToWrite)).2.peerDrain env.peerDrain) }
        env env.waits with
      | Except.ok r =>
        Except.ok { r with
          trace := Event.dataWrite (min bytes q.availableToWrite) ::
            Event.wake K.NOT_EMPTY :: r.trace }
      | Except.error f => Except.error f := by
  unfold writeTransfer
  simp only [hd, he, truncate_eq_min]

/-- What the transfer part of `write` can do on an established channel. -/
theorem writeTransfer_sound (K : Externals) (s : StreamOutHalHidl) (bytes : Nat) (env : WriteEnv)
    (q : DataMQ) (sq : StatusMQ) (e : EventFlag)
    (hd : s.mDataMQ = some q) (hs : s.mStatusMQ = some sq) (he : s.mEfGroup = some e) :
    writeTransfer K s bytes env = Except.error Fault.stillWaiting ∨
    ∃ r tr, writeTransfer K s bytes env = Except.ok r ∧
      r.trace = Event.dataWrite (min bytes q.availableToWrite) :: Event.wake K.NOT_EMPTY :: tr ∧
      (∀ ev ∈ tr, ev = Event.wait K.NOT_FULL K.NS_PER_SEC ∨ ev = Event.statusRead) ∧
      r.state.mStream = s.mStream ∧
      r.state.mDataMQ
        = some ((q.write (min bytes q.availableToWrite)).2.peerDrain env.peerDrain) ∧
      r.state.mStatusMQ = s.mStatusMQ ∧ r.state.mEfGroup = s.mEfGroup ∧
      r.state.mGetPresentationPositionNotSupported = s.mGetPresentationPositionNotSupported := by
  rw [writeTransfer_eq K s bytes env q e hd he]
  rcases writeWait_sound K
      { s with mDataMQ := some ((q.write (min bytes q.availableToWrite)).2.peerDrain env.peerDrain) }
      env sq hs env.waits with h | ⟨r, h, htr, h1, h2, h3, h4, h5⟩
  · left; rw [h]
  · right
    rw [h]
    exact ⟨_, r.trace, rfl, rfl, htr, h1, h2, h3, h4, h5⟩

/-- Whenever the transfer part of `write` returns a status other than `OK`,
`*written` is zero. -/
theorem writeTransfer_written (K : Externals) (s : StreamOutHalHidl) (bytes : Nat)
    (env : WriteEnv) (r : WriteRet) (h : writeTransfer K s bytes env = Except.ok r)
    (hne : r.status ≠ K.OK) : r.written = some 0 := by
  unfold writeTransfer at h
  cases hd : s.mDataMQ with
  | none => simp [hd] at h
  | some q =>
    cases he : s.mEfGroup with
    | none => simp [hd, he] at h
    | some e =>
      simp only [hd, he] at h
      split at h
      · rename_i r1 hr1
        cases h
        exact writeWait_written K _ env _ r1 hr1 hne
      · cases h

/-- The loop of `write` when the wait ends without `NOT_FULL` and with a status
other than `-EAGAIN`: that status is returned, nothing else is touched. -/
theorem writeWait_timeout (K : Externals) (s : StreamOutHalHidl) (env : WriteEnv)
    (pre rest : List WaitOutcome) (w : WaitOutcome)
    (hpre : ∀ x ∈ pre, x.isRetry K K.NOT_FULL)
    (hnoflag : w.efState &&& K.NOT_FULL = 0) (hret : w.ret ≠ -K.EAGAIN) :
    writeWait K s env (pre ++ w :: rest) =
      Except.ok
        { status := w.ret, written := some 0, state := s
          trace := List.replicate pre.length (Event.wait K.NOT_FULL K.NS_PER_SEC) ++
            [Event.wait K.NOT_FULL K.NS_PER_SEC] } := by
  rw [writeWait_retries K s env pre (w :: rest) hpre, writeWait]
  simp [hnoflag, hret]

/-- What `write` can do on an established channel: no null pointer is followed,
no round trip is made, the first call is the push into the data ring. -/
theorem write_established_sound (K : Externals) (s : StreamOutHalHidl)
    (q : DataMQ) (sq : StatusMQ) (e : EventFlag) (hstream : s.mStream = true)
    (hd : s.mDataMQ = some q) (hs : s.mStatusMQ = some sq) (he : s.mEfGroup = some e)
    (bytes : Nat) (env : WriteEnv) :
    write K s bytes env = Except.error Fault.stillWaiting ∨
    ∃ r tr, write K s bytes env = Except.ok r ∧ roundTrips r.trace = 0 ∧
      r.trace = Event.dataWrite (min bytes q.availableToWrite) :: tr := by
  rw [write_of_data K s bytes env q hstream hd]
  rcases writeTransfer_sound K s bytes env q sq e hd hs he with h | ⟨r2, tr, h, htr, hev, _⟩
  · exact Or.inl h
  · refine Or.inr ⟨r2, _, h, ?_, htr⟩
    rw [htr]
    simpa [roundTrips] using roundTrips_of_waits _ _ tr hev

/-- C3. A call of `write` on an established channel in which the wait ends
(after any number of retry outcomes) with a status other than `-EAGAIN` and
without `NOT_FULL`: the call returns exactly that status with `*written = 0`,
does not pop the status queue, leaves the cached position as it was and keeps
data queue (the same ring, holding the bytes just pushed), status queue and
event flag.  A following call of `write` therefore never follows a null
pointer, makes no round trip to the endpoint (no negotiation) and starts by
pushing into the same ring. -/
theorem write_timeout_keeps_session (K : Externals) (s : StreamOutHalHidl) (bytes : Nat)
    (env : WriteEnv) (pre rest : List WaitOutcome) (w : WaitOutcome) (q : DataMQ)
    (hstream : s.mStream = true) (hest : s.established) (hq : s.mDataMQ = some q)
    (hwaits : env.waits = pre ++ w :: rest)
    (hpre : ∀ x ∈ pre, x.isRetry K K.NOT_FULL)
    (hnoflag : w.efState &&& K.NOT_FULL = 0) (hret : w.ret ≠ -K.EAGAIN) :
    ∃ r, write K s bytes env = Except.ok r ∧
      r.status = w.ret ∧ r.written = some 0 ∧
      Event.statusRead ∉ r.trace ∧
      r.state.mPPosFromWrite = s.mPPosFromWrite ∧
      r.state.mDataMQ
        = some ((q.write (min bytes q.availableToWrite)).2.peerDrain env.peerDrain) ∧
      r.state.mStatusMQ = s.mStatusMQ ∧ r.state.mEfGroup = s.mEfGroup ∧
      r.state.established ∧
      ∀ (bytes2 : Nat) (env2 : WriteEnv),
        write K r.state bytes2 env2 = Except.error Fault.stillWaiting ∨
        ∃ r2 tr, write K r.state bytes2 env2 = Except.ok r2 ∧
          roundTrips r2.trace = 0 ∧
          r2.trace =
            Event.dataWrite (min bytes2
              ((q.write (min bytes q.availableToWrite)).2.peerDrain
                env.peerDrain).availableToWrite) :: tr := by
  obtain ⟨h1, h2, h3⟩ := hest
  obtain ⟨sq, hsq⟩ := Option.isSome_iff_exists.mp h2
  obtain ⟨e, he⟩ := Option.isSome_iff_exists.mp h3
  have hrun : write K s bytes env =
      Except.ok
        { status := w.ret, written := some 0
          state := { s with
            mDataMQ :=
              some ((q.write (min bytes q.availableToWrite)).2.peerDrain env.peerDrain) }
          trace := Event.dataWrite (min bytes q.availableToWrite) :: Event.wake K.NOT_EMPTY ::
            (List.replicate pre.length (Event.wait K.NOT_FULL K.NS_PER_SEC) ++
              [Event.wait K.NOT_FULL K.NS_PER_SEC]) } := by
    rw [write_of_data K s bytes env q hstream hq, writeTransfer_eq K s bytes env q e hq he,
      hwaits, writeWait_timeout K _ env pre rest w hpre hnoflag hret]
  refine ⟨_, hrun, rfl, rfl, ?_, rfl, rfl, rfl, rfl, ⟨rfl, h2, h3⟩, ?_⟩
  · simp [List.mem_replicate]
  · intro bytes2 env2
    exact write_established_sound K
      { s with
        mDataMQ := some ((q.write (min bytes q.availableToWrite)).2.peerDrain env.peerDrain) }
      _ sq e hstream rfl hsq he bytes2 env2

/-- A run of C3: the peer never signals, the wait times out. -/
theorem write_timeout_keeps_session_witness :
    ∃ r, write android readyOut 6000 envTimeout = Except.ok r ∧
      r.status = -110 ∧ r.written = some 0 ∧
      Event.statusRead ∉ r.trace ∧
      r.state.mPPosFromWrite = readyOut.mPPosFromWrite ∧
      r.state.mDataMQ
        = some ((ring4096.write (min 6000 ring4096.availableToWrite)).2.peerDrain
            envTimeout.peerDrain) ∧
      r.state.mStatusMQ = readyOut.mStatusMQ ∧ r.state.mEfGroup = readyOut.mEfGroup ∧
      r.state.established ∧
      ∀ (bytes2 : Nat) (env2 : WriteEnv),
        write android r.state bytes2 env2 = Except.error Fault.stillWaiting ∨
        ∃ r2 tr, write android r.state bytes2 env2 = Except.ok r2 ∧
          roundTrips r2.trace = 0 ∧
          r2.trace =
            Event.dataWrite (min bytes2
              ((ring4096.write (min 6000 ring4096.availableToWrite)).2.peerDrain
                envTimeout.peerDrain).availableToWrite) :: tr :=
  write_timeout_keeps_session android readyOut 6000 envTimeout [] []
    { ret := -110, efState := 0 } ring4096 rfl (by decide) rfl rfl
    (by intro x hx; cases hx) (by decide) (by decide)

/-- The loop of `write` at an outcome that carries `NOT_FULL`, when the record in
hand after the pop does not report success. -/
theorem writeWait_flag_err (K : Externals) (s : StreamOutHalHidl) (env : WriteEnv)
    (w : WaitOutcome) (ws : List WaitOutcome) (q : StatusMQ)
    (hq : s.mStatusMQ = some q) (hflag : w.efState &&& K.NOT_FULL ≠ 0)
    (hbad : (env.statusRead.getD WriteStatus.init).writeRetval ≠ Result.OK) :
    writeWait K s env (w :: ws) =
      Except.ok
        { status := K.processReturnResult (env.statusRead.getD WriteStatus.init).writeRetval
          written := some 0, state := s
          trace := [Event.wait K.NOT_FULL K.NS_PER_SEC, Event.statusRead] } := by
  rw [writeWait, if_pos hflag]
  simp only [hq]
  rw [if_neg hbad]

/-- Whenever `write` returns a status other than `OK` with the endpoint
present, `*written` is zero. -/
theorem write_written (K : Externals) (s : StreamOutHalHidl) (bytes : Nat) (env : WriteEnv)
    (hstream : s.mStream = true) (r : WriteRet) (h : write K s bytes env = Except.ok r)
    (hne : r.status ≠ K.OK) : r.written = some 0 := by
  unfold write at h
  rw [if_neg (by simp [hstream])] at h
  by_cases h0 : bytes = 0 ∧ s.mDataMQ = none
  · rw [if_pos h0] at h
    cases h
    rfl
  · rw [if_neg h0] at h
    cases hd : s.mDataMQ with
    | some q =>
      simp only [hd] at h
      exact writeTransfer_written K s bytes env r h hne
    | none =>
      simp only [hd] at h
      by_cases hp : (prepareForWriting K s bytes env.prepare).status ≠ K.OK
      · rw [if_pos hp] at h
        cases h
        rfl
      · rw [if_neg hp] at h
        split at h
        · rename_i r1 hr1
          cases h
          exact writeTransfer_written K _ bytes env r1 hr1 hne
        · cases h

/-- C4. With the endpoint present, every call of `write` that returns a status
other than `OK` leaves `*written` at zero, for every requested byte count and
every content of the status record.  In particular: when the negotiation
fails its status is returned with `*written = 0`; and when `NOT_FULL` is
observed on an established (or just negotiated) channel and the record in hand
has a write result other than `OK`, the returned status is the mapping of
that write result and `*written` is zero whatever the field `written` of the
record holds. -/
theorem write_failure_leaves_written_zero (K : Externals) (s : StreamOutHalHidl) (bytes : Nat)
    (env : WriteEnv) (hstream : s.mStream = true) :
    (∀ r, write K s bytes env = Except.ok r → r.status ≠ K.OK → r.written = some 0) ∧
    (s.mDataMQ = none → bytes ≠ 0 → (prepareForWriting K s bytes env.prepare).status ≠ K.OK →
      ∃ r, write K s bytes env = Except.ok r ∧
        r.status = (prepareForWriting K s bytes env.prepare).status ∧ r.written = some 0) ∧
    (∀ (pre rest : List WaitOutcome) (w : WaitOutcome),
      (s.established ∨
        (s.mDataMQ = none ∧ bytes ≠ 0 ∧
          (prepareForWriting K s bytes env.prepare).status = K.OK ∧
          (prepareForWriting K s bytes env.prepare).state.established)) →
      env.waits = pre ++ w :: rest →
      (∀ x ∈ pre, x.isRetry K K.NOT_FULL) →
      w.efState &&& K.NOT_FULL ≠ 0 →
      (env.statusRead.getD WriteStatus.init).writeRetval ≠ Result.OK →
      ∃ r, write K s bytes env = Except.ok r ∧
        r.status = K.processReturnResult (env.statusRead.getD WriteStatus.init).writeRetval ∧
        r.written = some 0) := by
  refine ⟨fun r h hne => write_written K s bytes env hstream r h hne, ?_, ?_⟩
  · intro hnone hbytes hst
    refine ⟨{ status := (prepareForWriting K s bytes env.prepare).status, written := some 0
              state := (prepareForWriting K s bytes env.prepare).state
              trace := (prepareForWriting K s bytes env.prepare).trace }, ?_, rfl, rfl⟩
    unfold write
    simp [hstream, hnone, hbytes, hst]
  · intro pre rest w hchan hwaits hpre hflag hbad
    have key : ∀ (s1 : StreamOutHalHidl), s1.established →
        ∃ r, writeTransfer K s1 bytes env = Except.ok r ∧
          r.status = K.processReturnResult (env.statusRead.getD WriteStatus.init).writeRetval ∧
          r.written = some 0 := by
      intro s1 hest
      obtain ⟨h1, h2, h3⟩ := hest
      obtain ⟨q, hq⟩ := Option.isSome_iff_exists.mp h1
      obtain ⟨sq, hsq⟩ := Option.isSome_iff_exists.mp h2
      obtain ⟨e, he⟩ := Option.isSome_iff_exists.mp h3
      rw [writeTransfer_eq K s1 bytes env q e hq he, hwaits,
        writeWait_retries K _ env pre (w :: rest) hpre,
        writeWait_flag_err K
          { s1 with
            mDataMQ :=
              some ((q.write (min bytes q.availableToWrite)).2.peerDrain env.peerDrain) }
          env w rest sq hsq hflag hbad]
      exact ⟨_, rfl, rfl, rfl⟩
    rcases hchan with hest | ⟨hnone, hbytes, hst, hest⟩
    · obtain ⟨q, hq⟩ := Option.isSome_iff_exists.mp hest.1
      rw [write_of_data K s bytes env q hstream hq]
      exact key s hest
    · obtain ⟨r, hr, h1, h2⟩ := key _ hest
      refine ⟨{ r with trace := (prepareForWriting K s bytes env.prepare).trace ++ r.trace }, ?_,
        h1, h2⟩
      unfold write
      simp [hstream, hnone, hbytes, hst, hr]

/-- A run of C4: the record reports `INVALID_STATE` and 512 bytes; the call
returns the mapped error and `*written` is zero. -/
theorem write_failure_leaves_written_zero_witness :
    ∃ r, write android readyOut 6000 envRejected = Except.ok r ∧
      r.status
        = android.processReturnResult (envRejected.statusRead.getD WriteStatus.init).writeRetval ∧
      r.written = some 0 :=
  (write_failure_leaves_written_zero android readyOut 6000 envRejected rfl).2.2 [] []
    { ret := 0, efState := 2 } (Or.inl (by decide)) rfl (by intro x hx; cases hx)
    (by decide) (by decide)

/-- Retry outcomes in front of the script only add calls of `wait` to `read`. -/
theorem readWait_retries (K : Externals) (s : StreamInHalHidl) (bytes : Nat)
    (status : Option status_t) (env : ReadEnv)
    (pre ws : List WaitOutcome) (hpre : ∀ x ∈ pre, x.isRetry K K.NOT_EMPTY) :
    readWait K s bytes status env (pre ++ ws) =
      match readWait K s bytes status env ws with
      | Except.ok r =>
        Except.ok { r with
          trace := List.replicate pre.length (Event.wait K.NOT_EMPTY K.NS_PER_SEC) ++ r.trace }
      | Except.error e => Except.error e := by
  induction pre with
  | nil =>
    simp only [List.nil_append]
    cases readWait K s bytes status env ws <;> simp
  | cons x xs ih =>
    have hx : x.isRetry K K.NOT_EMPTY := hpre x (List.mem_cons_self _ _)
    have hxs : ∀ y ∈ xs, y.isRetry K K.NOT_EMPTY := fun y hy => hpre y (List.mem_cons_of_mem _ hy)
    obtain ⟨hx1, hx2⟩ := hx
    rw [List.cons_append, readWait, ih hxs]
    cases readWait K s bytes status env ws <;> simp [hx1, hx2, List.replicate_succ]

/-- The loop of `read` at an outcome that does not send it back to `retry`: it
returns after this one wait. -/
theorem readWait_final (K : Externals) (s : StreamInHalHidl) (bytes : Nat)
    (status : Option status_t) (env : ReadEnv) (q : DataMQ) (sq : StatusMQ)
    (hd : s.mDataMQ = some q) (hs : s.mStatusMQ = some sq)
    (w : WaitOutcome) (rest : List WaitOutcome) (hw : ¬ w.isRetry K K.NOT_EMPTY) :
    ∃ r, readWait K s bytes status env (w :: rest) = Except.ok r ∧ waitCount r.trace = 1 := by
  rw [readWait]
  by_cases hflag : w.efState &&& K.NOT_EMPTY ≠ 0
  · rw [if_pos hflag]
    simp only [hd, hs]
    by_cases hok : (env.statusRead.getD ReadStatus.init).retval = Result.OK
    · rw [if_pos hok]; exact ⟨_, rfl, rfl⟩
    · rw [if_neg hok]; exact ⟨_, rfl, rfl⟩
  · rw [if_neg hflag]
    have hret : w.ret ≠ -K.EAGAIN := fun h => hw ⟨not_not.mp hflag, h⟩
    rw [if_neg hret]
    exact ⟨_, rfl, rfl⟩

/-- The loop of `read` on a script of retry outcomes only never returns. -/
theorem readWait_all_retries (K : Externals) (s : StreamInHalHidl) (bytes : Nat)
    (status : Option status_t) (env : ReadEnv) :
    ∀ ws : List WaitOutcome, (∀ x ∈ ws, x.isRetry K K.NOT_EMPTY) →
      readWait K s bytes status env ws = Except.error Fault.stillWaiting := by
  intro ws
  induction ws with
  | nil => intro _; rfl
  | cons w ws ih =>
    intro h
    obtain ⟨h1, h2⟩ := h w (List.mem_cons_self _ _)
    rw [readWait, ih (fun x hx => h x (List.mem_cons_of_mem _ hx))]
    simp [h1, h2]

/-- On an established channel `read` goes straight to the wait; the local
`status` has not been assigned at that point. -/
theorem read_of_established (K : Externals) (s : StreamInHalHidl) (bytes : Nat) (env : ReadEnv)
    (q : DataMQ) (e : EventFlag) (hstream : s.mStream = true) (hd : s.mDataMQ = some q)
    (he : s.mEfGroup = some e) :
    read K s bytes env =
      readWait K { s with mDataMQ := some (q.peerFill env.peerFill) } bytes none env env.waits := by
  unfold read readTransfer
  simp [hstream, hd, he]

/-- On an established channel, when the outcomes of the wait are retry outcomes
followed by one that is not, `write` returns, after one wait per outcome. -/
theorem write_returns_after_retries (K : Externals) (s : StreamOutHalHidl) (bytes : Nat)
    (env : WriteEnv) (pre rest : List WaitOutcome) (w : WaitOutcome)
    (hstream : s.mStream = true) (hest : s.established) (hwaits : env.waits = pre ++ w :: rest)
    (hpre : ∀ x ∈ pre, x.isRetry K K.NOT_FULL) (hw : ¬ w.isRetry K K.NOT_FULL) :
    ∃ r, write K s bytes env = Except.ok r ∧ waitCount r.trace = pre.length + 1 := by
  obtain ⟨h1, h2, h3⟩ := hest
  obtain ⟨q, hq⟩ := Option.isSome_iff_exists.mp h1
  obtain ⟨sq, hsq⟩ := Option.isSome_iff_exists.mp h2
  obtain ⟨e, he⟩ := Option.isSome_iff_exists.mp h3
  obtain ⟨r, hr, hcount⟩ := writeWait_final K
    { s with mDataMQ := some ((q.write (min bytes q.availableToWrite)).2.peerDrain env.peerDrain) }
    env sq hsq w rest hw
  rw [write_of_data K s bytes env q hstream hq, writeTransfer_eq K s bytes env q e hq he,
    hwaits, writeWait_retries K _ env pre (w :: rest) hpre, hr]
  refine ⟨_, rfl, ?_⟩
  show waitCount (List.replicate pre.length _ ++ r.trace) = pre.length + 1
  rw [waitCount_replicate, hcount]

/-- C5, as the code has it.  In `write` and in `read` the wait is issued again
every time it returns `-EAGAIN` without the awaited flag; no count of retries
is kept.  On an established channel, when the outcomes of the wait are `k`
retry outcomes followed by one that is not, the call makes exactly `k + 1`
waits and returns; when every outcome is a retry outcome the call is still
waiting at the end of the script, however long the script is. -/
theorem wait_retried_while_eagain (K : Externals) :
    (∀ (s : StreamOutHalHidl) (bytes : Nat) (env : WriteEnv) (pre rest : List WaitOutcome)
        (w : WaitOutcome),
      s.mStream = true → s.established → env.waits = pre ++ w :: rest →
      (∀ x ∈ pre, x.isRetry K K.NOT_FULL) → ¬ w.isRetry K K.NOT_FULL →
      ∃ r, write K s bytes env = Except.ok r ∧ waitCount r.trace = pre.length + 1) ∧
    (∀ (s : StreamOutHalHidl) (bytes : Nat) (env : WriteEnv),
      s.mStream = true → s.established → (∀ x ∈ env.waits, x.isRetry K K.NOT_FULL) →
      write K s bytes env = Except.error Fault.stillWaiting) ∧
    (∀ (s : StreamInHalHidl) (bytes : Nat) (env : ReadEnv) (pre rest : List WaitOutcome)
        (w : WaitOutcome),
      s.mStream = true → s.established → env.waits = pre ++ w :: rest →
      (∀ x ∈ pre, x.isRetry K K.NOT_EMPTY) → ¬ w.isRetry K K.NOT_EMPTY →
      ∃ r, read K s bytes env = Except.ok r ∧ waitCount r.trace = pre.length + 1) ∧
    (∀ (s : StreamInHalHidl) (bytes : Nat) (env : ReadEnv),
      s.mStream = true → s.established → (∀ x ∈ env.waits, x.isRetry K K.NOT_EMPTY) →
      read K s bytes env = Except.error Fault.stillWaiting) := by
  refine ⟨?_, ?_, ?_, ?_⟩
  · intro s bytes env pre rest w hstream hest hwaits hpre hw
    exact write_returns_after_retries K s bytes env pre rest w hstream hest hwaits hpre hw
  · intro s bytes env hstream hest hall
    obtain ⟨h1, _, h3⟩ := hest
    obtain ⟨q, hq⟩ := Option.isSome_iff_exists.mp h1
    obtain ⟨e, he⟩ := Option.isSome_iff_exists.mp h3
    rw [write_of_data K s bytes env q hstream hq, writeTransfer_eq K s bytes env q e hq he,
      writeWait_all_retries K _ env env.waits hall]
  · intro s bytes env pre rest w hstream hest hwaits hpre hw
    obtain ⟨h1, h2, h3⟩ := hest
    obtain ⟨q, hq⟩ := Option.isSome_iff_exists.mp h1
    obtain ⟨sq, hsq⟩ := Option.isSome_iff_exists.mp h2
    obtain ⟨e, he⟩ := Option.isSome_iff_exists.mp h3
    obtain ⟨r, hr, hcount⟩ := readWait_final K
      { s with mDataMQ := some (q.peerFill env.peerFill) } bytes none env
      (q.peerFill env.peerFill) sq rfl hsq w rest hw
    rw [read_of_established K s bytes env q e hstream hq he, hwaits,
      readWait_retries K _ bytes none env pre (w :: rest) hpre, hr]
    refine ⟨_, rfl, ?_⟩
    show waitCount (List.replicate pre.length _ ++ r.trace) = pre.length + 1
    rw [waitCount_replicate, hcount]
  · intro s bytes env hstream hest hall
    obtain ⟨h1, _, h3⟩ := hest
    obtain ⟨q, hq⟩ := Option.isSome_iff_exists.mp h1
    obtain ⟨e, he⟩ := Option.isSome_iff_exists.mp h3
    rw [read_of_established K s bytes env q e hstream hq he,
      readWait_all_retries K _ bytes none env env.waits hall]

/-- A run of the statement above: two retry outcomes, then `NOT_FULL`, make
three waits. -/
theorem wait_retried_while_eagain_witness :
    ∃ r, write android readyOut 6000 envTwoRetries = Except.ok r ∧
      waitCount r.trace = 2 + 1 :=
  (wait_retried_while_eagain android).1 readyOut 6000 envTwoRetries
    [{ ret := -11, efState := 0 }, { ret := -11, efState := 0 }] []
    { ret := 0, efState := 2 } rfl (by decide) rfl (by decide) (by decide)

/-- C5 fails as stated: after the wait has returned `-EAGAIN` twice without the
flag, `write` and `read` wait a third time instead of returning a timeout
error, and return `OK` when the third wait observes the flag. -/
theorem wait_retry_not_bounded_by_two :
    (∃ r, write android readyOut 6000 envTwoRetries = Except.ok r ∧
      waitCount r.trace = 3 ∧ r.status = android.OK ∧ r.written = some 4096) ∧
    (∃ r, read android freshIn 256 envFilledTwoRetries = Except.ok r ∧
      waitCount r.trace = 3 ∧ r.status = some android.OK ∧ r.read = some 256) :=
  ⟨⟨_, rfl, by decide, by decide, by decide⟩, ⟨_, rfl, by decide, by decide, by decide⟩⟩

/-- On every established inbound session, a call of `read` in which the wait ends
with `NOT_EMPTY` and the popped record has read result `OK` sets `*read` to the
count of the record and returns the local `status` unassigned. -/
theorem read_established_status (K : Externals) (s : StreamInHalHidl) (bytes : Nat)
    (env : ReadEnv) (pre rest : List WaitOutcome) (w : WaitOutcome) (rec : ReadStatus)
    (hstream : s.mStream = true) (hest : s.established)
    (hwaits : env.waits = pre ++ w :: rest)
    (hpre : ∀ x ∈ pre, x.isRetry K K.NOT_EMPTY)
    (hflag : w.efState &&& K.NOT_EMPTY ≠ 0)
    (hrec : env.statusRead = some rec) (hok : rec.retval = Result.OK) :
    ∃ r, read K s bytes env = Except.ok r ∧ r.status = none ∧ r.read = some rec.read := by
  obtain ⟨h1, h2, h3⟩ := hest
  obtain ⟨q, hq⟩ := Option.isSome_iff_exists.mp h1
  obtain ⟨sq, hsq⟩ := Option.isSome_iff_exists.mp h2
  obtain ⟨e, he⟩ := Option.isSome_iff_exists.mp h3
  rw [read_of_established K s bytes env q e hstream hq he, hwaits,
    readWait_retries K _ bytes none env pre (w :: rest) hpre, readWait, if_pos hflag]
  simp only [hsq, hrec, Option.getD_some, hok, if_true]
  exact ⟨_, rfl, rfl, rfl⟩

/-- C6, the code at the failing input.  On an inbound session whose channel was
established by an earlier call, a call of `read` in which the wait observes
`NOT_EMPTY` and the popped record has read result `OK` sets `*read` to the
count of the record (also when the ring reported a different count), but the
value it returns is the local `status` of line 527, which no statement has
assigned on this path.  On the call that negotiates the channel the same
answers give the return value `OK`, left in `status` by line 529. -/
theorem read_established_returns_unassigned_status :
    read android readyIn 256 envFilled =
        Except.ok
          { status := none, read := some 256
            state := { readyIn with mDataMQ := some ring4096 }
            trace := [Event.wait 1 1000000000, Event.dataRead 256, Event.statusRead,
              Event.wake 2] } ∧
      (∃ r, read android readyIn 256 envFilledMismatch = Except.ok r ∧
        r.status = none ∧ r.read = some 100 ∧ Event.dataRead 256 ∈ r.trace) ∧
      (∃ r, read android freshIn 256 envFilled = Except.ok r ∧
        r.status = some android.OK ∧ r.read = some 256) :=
  ⟨rfl, ⟨_, rfl, rfl, rfl, by decide⟩, ⟨_, rfl, rfl, rfl⟩⟩

/-- Waits and pops of the status queue push nothing into the data ring. -/
theorem pushedBytes_of_waits (a b : Nat) :
    ∀ tr : List Event, (∀ ev ∈ tr, ev = Event.wait a b ∨ ev = Event.statusRead) →
      pushedBytes tr = 0 := by
  intro tr
  induction tr with
  | nil => intro _; rfl
  | cons ev tr ih =>
    intro h
    have htl := ih (fun x hx => h x (List.mem_cons_of_mem _ hx))
    rcases h ev (List.mem_cons_self _ _) with h0 | h0 <;> subst h0 <;> simpa [pushedBytes] using htl

/-- The bytes pushed by two traces add up. -/
theorem pushedBytes_append (tr1 tr2 : List Event) :
    pushedBytes (tr1 ++ tr2) = pushedBytes tr1 + pushedBytes tr2 := by
  induction tr1 with
  | nil => simp [pushedBytes]
  | cons ev tr ih =>
    cases ev <;> simp [pushedBytes, ih, Nat.add_assoc]

/-- A ring write of the truncated count always succeeds and raises the level by
that count. -/
theorem DataMQ.write_min (q : DataMQ) (bytes : Nat) :
    (q.write (min bytes q.availableToWrite)).2
      = { q with level := q.level + min bytes q.availableToWrite } := by
  unfold DataMQ.write
  rw [if_pos (Nat.min_le_right _ _)]

/-- One call of `write` on an established channel, seen from the data ring. -/
theorem write_push (K : Externals) (s : StreamOutHalHidl) (q : DataMQ) (sq : StatusMQ)
    (e : EventFlag) (hstream : s.mStream = true) (hd : s.mDataMQ = some q)
    (hs : s.mStatusMQ = some sq) (he : s.mEfGroup = some e) (bytes : Nat) (env : WriteEnv) :
    write K s bytes env = Except.error Fault.stillWaiting ∨
    ∃ r tr, write K s bytes env = Except.ok r ∧
      r.trace = Event.dataWrite (min bytes q.availableToWrite) :: tr ∧
      pushedBytes r.trace = min bytes q.availableToWrite ∧
      r.state.mDataMQ =
        some { q with level := q.level + min bytes q.availableToWrite - env.peerDrain } ∧
      r.state.mStream = true ∧ r.state.mStatusMQ = some sq ∧ r.state.mEfGroup = some e := by
  rw [write_of_data K s bytes env q hstream hd]
  rcases writeTransfer_sound K s bytes env q sq e hd hs he with
    h | ⟨r, tr, h, htr, hev, h1, h2, h3, h4, _⟩
  · exact Or.inl h
  · refine Or.inr ⟨r, _, h, htr, ?_, ?_, h1.trans hstream, h3.trans hs, h4.trans he⟩
    · rw [htr]
      show min bytes q.availableToWrite + pushedBytes tr = _
      rw [pushedBytes_of_waits _ _ tr hev, Nat.add_zero]
    · rw [h2, DataMQ.write_min]
      rfl

/-- Consecutive calls of `write` on an established channel while the peer takes
nothing out of the ring: the level of the ring grows by exactly the bytes
pushed, and what is pushed fits into the space that was free at the start. -/
theorem runOut_writes_no_drain (K : Externals) :
    ∀ (calls : List (Nat × WriteEnv)) (s : StreamOutHalHidl) (q : DataMQ) (sq : StatusMQ)
      (e : EventFlag),
      s.mStream = true → s.mDataMQ = some q → s.mStatusMQ = some sq → s.mEfGroup = some e →
      (∀ c ∈ calls, c.2.peerDrain = 0) →
      ∀ (s1 : StreamOutHalHidl) (tr : List Event),
        runOut K s (calls.map (fun c => OutOp.write c.1 c.2)) = Except.ok (s1, tr) →
        s1.mDataMQ = some { q with level := q.level + pushedBytes tr } ∧
        pushedBytes tr ≤ q.capacity - q.level := by
  intro calls
  induction calls with
  | nil =>
    intro s q sq e _ hd _ _ _ s1 tr h
    simp only [List.map_nil, runOut] at h
    cases h
    exact ⟨by simpa [pushedBytes] using hd, Nat.zero_le _⟩
  | cons c calls ih =>
    intro s q sq e hstream hd hs he hdrain s1 tr h
    have hc : c.2.peerDrain = 0 := hdrain c (List.mem_cons_self _ _)
    have hrest : ∀ x ∈ calls, x.2.peerDrain = 0 :=
      fun x hx => hdrain x (List.mem_cons_of_mem _ hx)
    simp only [List.map_cons, runOut, stepOut] at h
    rcases write_push K s q sq e hstream hd hs he c.1 c.2 with
      hw | ⟨r, tr0, hw, _, hpush, hq1, hst1, hs1, he1⟩
    · rw [hw] at h
      cases h
    · rw [hw] at h
      simp only [] at h
      rw [hc, Nat.sub_zero] at hq1
      cases hrun : runOut K r.state (calls.map (fun c => OutOp.write c.1 c.2)) with
      | error f =>
        rw [hrun] at h
        cases h
      | ok res =>
        obtain ⟨s2, tr2⟩ := res
        rw [hrun] at h
        simp only [Except.ok.injEq, Prod.mk.injEq] at h
        obtain ⟨hs2, htr⟩ := h
        subst hs2
        subst htr
        obtain ⟨hq2, hle⟩ := ih r.state _ sq e hst1 hq1 hs1 he1 hrest s2 tr2 hrun
        simp only [DataMQ.availableToWrite] at hpush hq2 hle
        rw [pushedBytes_append, hpush]
        refine ⟨?_, ?_⟩
        · rw [hq2]
          simp only [DataMQ.availableToWrite, Nat.add_assoc]
        · omega

/-- C7. On an established data ring `write` pushes `min(bytes, availableToWrite())`
bytes: this is the first call of every run that returns, and a run returns as
soon as the wait delivers an outcome that is not a retry outcome.  Hence, over any number
of consecutive calls of `write` during which the peer takes nothing out, the
level of the ring is its initial level plus the bytes pushed, and the bytes
pushed never exceed the space that was free, so never the capacity.  On a
fresh session that negotiates a 4096-byte ring, a write of 6000 bytes pushes
exactly 4096 bytes, and with a peer that drains them and reports `OK` with
4096 bytes written the call returns `OK` with `*written = 4096`. -/
theorem write_pushes_min_of_bytes_and_free_space (K : Externals) :
    (∀ (s : StreamOutHalHidl) (q : DataMQ) (bytes : Nat) (env : WriteEnv),
      s.mStream = true → s.established → s.mDataMQ = some q →
      write K s bytes env = Except.error Fault.stillWaiting ∨
      ∃ r tr, write K s bytes env = Except.ok r ∧
        r.trace = Event.dataWrite (min bytes q.availableToWrite) :: tr ∧
        pushedBytes r.trace = min bytes q.availableToWrite) ∧
    (∀ (s : StreamOutHalHidl) (q : DataMQ) (bytes : Nat) (env : WriteEnv)
        (pre rest : List WaitOutcome) (w : WaitOutcome),
      s.mStream = true → s.established → s.mDataMQ = some q →
      env.waits = pre ++ w :: rest → (∀ x ∈ pre, x.isRetry K K.NOT_FULL) →
      ¬ w.isRetry K K.NOT_FULL →
      ∃ r tr, write K s bytes env = Except.ok r ∧
        r.trace = Event.dataWrite (min bytes q.availableToWrite) :: tr ∧
        pushedBytes r.trace = min bytes q.availableToWrite) ∧
    (∀ (calls : List (Nat × WriteEnv)) (s : StreamOutHalHidl) (q : DataMQ),
      s.mStream = true → s.established → s.mDataMQ = some q →
      (∀ c ∈ calls, c.2.peerDrain = 0) →
      ∀ (s1 : StreamOutHalHidl) (tr : List Event),
        runOut K s (calls.map (fun c => OutOp.write c.1 c.2)) = Except.ok (s1, tr) →
        s1.mDataMQ = some { q with level := q.level + pushedBytes tr } ∧
        pushedBytes tr ≤ q.capacity - q.level ∧ pushedBytes tr ≤ q.capacity) ∧
    write android freshOut 6000 envDrained =
      Except.ok
        { status := android.OK, written := some 4096
          state := { readyOut with
            mPPosFromWrite :=
              { obtained := 100000000, status := 0, frames := 1024
                ts := { tv_sec := 12, tv_nsec := 500 } } }
          trace := [Event.prepareForWriting 1 6000 0, Event.createEventFlag,
            Event.dataWrite 4096, Event.wake 1, Event.wait 2 1000000000, Event.statusRead] } := by
  refine ⟨?_, ?_, ?_, rfl⟩
  · intro s q bytes env hstream hest hd
    obtain ⟨_, h2, h3⟩ := hest
    obtain ⟨sq, hsq⟩ := Option.isSome_iff_exists.mp h2
    obtain ⟨e, he⟩ := Option.isSome_iff_exists.mp h3
    rcases write_push K s q sq e hstream hd hsq he bytes env with h | ⟨r, tr, h, htr, hp, _⟩
    · exact Or.inl h
    · exact Or.inr ⟨r, tr, h, htr, hp⟩
  · intro s q bytes env pre rest w hstream hest hd hwaits hpre hw
    obtain ⟨r0, hr0, _⟩ :=
      write_returns_after_retries K s bytes env pre rest w hstream hest hwaits hpre hw
    obtain ⟨_, h2, h3⟩ := hest
    obtain ⟨sq, hsq⟩ := Option.isSome_iff_exists.mp h2
    obtain ⟨e, he⟩ := Option.isSome_iff_exists.mp h3
    rcases write_push K s q sq e hstream hd hsq he bytes env with h | ⟨r, tr, h, htr, hp, _⟩
    · rw [hr0] at h
      cases h
    · exact ⟨r, tr, h, htr, hp⟩
  · intro calls s q hstream hest hd hdrain s1 tr hrun
    obtain ⟨_, h2, h3⟩ := hest
    obtain ⟨sq, hsq⟩ := Option.isSome_iff_exists.mp h2
    obtain ⟨e, he⟩ := Option.isSome_iff_exists.mp h3
    obtain ⟨ha, hb⟩ := runOut_writes_no_drain K calls s q sq e hstream hd hsq he hdrain s1 tr hrun
    exact ⟨ha, hb, le_trans hb (Nat.sub_le _ _)⟩

/-- A run of C7: two writes of 3000 bytes into the 4096-byte ring with a peer
that takes nothing out push 3000 and then 1096 bytes. -/
theorem write_pushes_min_of_bytes_and_free_space_witness :
    runOut android readyOut
        ([(3000, envNoDrain), (3000, envNoDrain)].map (fun c => OutOp.write c.1 c.2))
      = Except.ok
          ({ readyOut with
              mDataMQ := some { ring4096 with level := 4096 }
              mPPosFromWrite :=
                { obtained := 100000000, status := 0, frames := 1024
                  ts := { tv_sec := 12, tv_nsec := 500 } } },
            [Event.dataWrite 3000, Event.wake 1, Event.wait 2 1000000000, Event.statusRead,
              Event.dataWrite 1096, Event.wake 1, Event.wait 2 1000000000, Event.statusRead]) ∧
      pushedBytes
          [Event.dataWrite 3000, Event.wake 1, Event.wait 2 1000000000, Event.statusRead,
            Event.dataWrite 1096, Event.wake 1, Event.wait 2 1000000000, Event.statusRead]
        ≤ ring4096.capacity :=
  ⟨rfl,
    ((write_pushes_min_of_bytes_and_free_space android).2.2.1
      [(3000, envNoDrain), (3000, envNoDrain)] readyOut ring4096 rfl (by decide) rfl
      (by decide) _ _ rfl).2.2⟩

/-- The state of the object after a call of `write` that ends with `NOT_FULL`
observed and a record reporting success: endpoint and latch as before, the
cached position rewritten. -/
theorem write_success_cache (K : Externals) (s : StreamOutHalHidl) (bytes : Nat)
    (env : WriteEnv) (pre rest : List WaitOutcome) (w : WaitOutcome) (rec : WriteStatus)
    (hstream : s.mStream = true)
    (hchan : s.established ∨
      (s.mDataMQ = none ∧ bytes ≠ 0 ∧
        (prepareForWriting K s bytes env.prepare).status = K.OK ∧
        (prepareForWriting K s bytes env.prepare).state.established))
    (hwaits : env.waits = pre ++ w :: rest)
    (hpre : ∀ x ∈ pre, x.isRetry K K.NOT_FULL)
    (hflag : w.efState &&& K.NOT_FULL ≠ 0)
    (hrec : env.statusRead = some rec) (hok : rec.writeRetval = Result.OK) :
    ∃ r, write K s bytes env = Except.ok r ∧ r.status = K.OK ∧
      r.state.mStream = true ∧
      r.state.mGetPresentationPositionNotSupported = s.mGetPresentationPositionNotSupported ∧
      r.state.mPPosFromWrite =
        { obtained := getCurrentTimeMs env.timeNow
          status := K.processReturnResult rec.presentationPositionRetval
          frames :=
            if K.processReturnResult rec.presentationPositionRetval = K.OK then rec.frames
            else s.mPPosFromWrite.frames
          ts :=
            if K.processReturnResult rec.presentationPositionRetval = K.OK then
              rec.timeStamp.toTimespec
            else s.mPPosFromWrite.ts } := by
  have key : ∀ (s1 : StreamOutHalHidl), s1.established →
      s1.mPPosFromWrite = s.mPPosFromWrite →
      s1.mGetPresentationPositionNotSupported = s.mGetPresentationPositionNotSupported →
      s1.mStream = true →
      ∃ r, writeTransfer K s1 bytes env = Except.ok r ∧ r.status = K.OK ∧
        r.state.mStream = true ∧
        r.state.mGetPresentationPositionNotSupported
          = s.mGetPresentationPositionNotSupported ∧
        r.state.mPPosFromWrite =
          { obtained := getCurrentTimeMs env.timeNow
            status := K.processReturnResult rec.presentationPositionRetval
            frames :=
              if K.processReturnResult rec.presentationPositionRetval = K.OK then rec.frames
              else s.mPPosFromWrite.frames
            ts :=
              if K.processReturnResult rec.presentationPositionRetval = K.OK then
                rec.timeStamp.toTimespec
              else s.mPPosFromWrite.ts } := by
    intro s1 hest hpp hl hst
    obtain ⟨h1, h2, h3⟩ := hest
    obtain ⟨q, hq⟩ := Option.isSome_iff_exists.mp h1
    obtain ⟨sq, hsq⟩ := Option.isSome_iff_exists.mp h2
    obtain ⟨e, he⟩ := Option.isSome_iff_exists.mp h3
    refine ⟨_, writeTransfer_ok K s1 bytes env pre rest w rec q sq e hq hsq he hwaits hpre hflag
      hrec hok, rfl, hst, hl, ?_⟩
    simp only [hpp]
  rcases hchan with hest | ⟨hnone, hbytes, hst, hest⟩
  · obtain ⟨r, hr, rest1⟩ := key s hest rfl rfl hstream
    obtain ⟨q, hq⟩ := Option.isSome_iff_exists.mp hest.1
    exact ⟨r, by rw [write_of_data K s bytes env q hstream hq]; exact hr, rest1⟩
  · obtain ⟨hk1, hk2, hk3⟩ := prepareForWriting_keeps K s bytes env.prepare
    obtain ⟨r, hr, h1, h2, h3, h4⟩ := key _ hest hk1 hk2 (hk3.trans hstream)
    refine ⟨{ r with trace := (prepareForWriting K s bytes env.prepare).trace ++ r.trace }, ?_,
      h1, h2, h3, h4⟩
    unfold write
    simp [hstream, hnone, hbytes, hst, hr]

/-- A position query that finds the latch unset and the cached position at most
1000 clock units old is answered from the cache. -/
theorem getPresentationPosition_cached (K : Externals) (s : StreamOutHalHidl)
    (env : PositionEnv) (hstream : s.mStream = true)
    (hlatch : s.mGetPresentationPositionNotSupported = false)
    (hfresh : u64sub (getCurrentTimeMs env.timeNow) s.mPPosFromWrite.obtained ≤ 1000) :
    getPresentationPosition K s env =
      { status := s.mPPosFromWrite.status
        frames := if s.mPPosFromWrite.status = K.OK then some s.mPPosFromWrite.frames else none
        timestamp := if s.mPPosFromWrite.status = K.OK then some s.mPPosFromWrite.ts else none
        state := s, trace := [] } := by
  unfold getPresentationPosition
  by_cases hst : s.mPPosFromWrite.status = K.OK <;> simp [hstream, hlatch, hfresh, hst]

/-- C8. With the endpoint present and the latch unset, a call of
`getPresentationPosition` made when the clock value of `getCurrentTimeMs`
(`tv_sec * 1000000 + tv_nsec / 1000`) minus the cached `obtained`, taken in
`uint64_t` as the code takes it, is at most 1000 makes no call to the endpoint,
leaves the object as it is and returns the cached status as it stands, also
when it is a failure; when that status is `OK` it outputs the cached frames and
timestamp, otherwise it writes no output.  Hence after a call of `write` that
succeeded at clock value `t`, two queries at clock values in `[t, t + 1000]`
make no round trip and return the same status, frames and timestamp, which
are those of the status record when its position result maps to `OK`. -/
theorem position_query_within_1ms_uses_cache (K : Externals) :
    (∀ (s : StreamOutHalHidl) (env : PositionEnv),
      s.mStream = true → s.mGetPresentationPositionNotSupported = false →
      u64sub (getCurrentTimeMs env.timeNow) s.mPPosFromWrite.obtained ≤ 1000 →
      (getPresentationPosition K s env).trace = [] ∧
      roundTrips (getPresentationPosition K s env).trace = 0 ∧
      (getPresentationPosition K s env).state = s ∧
      (getPresentationPosition K s env).status = s.mPPosFromWrite.status ∧
      (s.mPPosFromWrite.status = K.OK →
        (getPresentationPosition K s env).frames = some s.mPPosFromWrite.frames ∧
        (getPresentationPosition K s env).timestamp = some s.mPPosFromWrite.ts) ∧
      (s.mPPosFromWrite.status ≠ K.OK →
        (getPresentationPosition K s env).frames = none ∧
        (getPresentationPosition K s env).timestamp = none)) ∧
    (∀ (s : StreamOutHalHidl) (bytes : Nat) (envW : WriteEnv) (pre rest : List WaitOutcome)
        (w : WaitOutcome) (rec : WriteStatus) (e1 e2 : PositionEnv),
      s.mStream = true → s.mGetPresentationPositionNotSupported = false →
      (s.established ∨
        (s.mDataMQ = none ∧ bytes ≠ 0 ∧
          (prepareForWriting K s bytes envW.prepare).status = K.OK ∧
          (prepareForWriting K s bytes envW.prepare).state.established)) →
      envW.waits = pre ++ w :: rest → (∀ x ∈ pre, x.isRetry K K.NOT_FULL) →
      w.efState &&& K.NOT_FULL ≠ 0 →
      envW.statusRead = some rec → rec.writeRetval = Result.OK →
      getCurrentTimeMs envW.timeNow ≤ getCurrentTimeMs e1.timeNow →
      getCurrentTimeMs e1.timeNow - getCurrentTimeMs envW.timeNow ≤ 1000 →
      getCurrentTimeMs envW.timeNow ≤ getCurrentTimeMs e2.timeNow →
      getCurrentTimeMs e2.timeNow - getCurrentTimeMs envW.timeNow ≤ 1000 →
      ∃ rw, write K s bytes envW = Except.ok rw ∧ rw.status = K.OK ∧
        (getPresentationPosition K rw.state e1).trace = [] ∧
        (getPresentationPosition K (getPresentationPosition K rw.state e1).state e2).trace = [] ∧
        (getPresentationPosition K (getPresentationPosition K rw.state e1).state e2).status
          = (getPresentationPosition K rw.state e1).status ∧
        (getPresentationPosition K (getPresentationPosition K rw.state e1).state e2).frames
          = (getPresentationPosition K rw.state e1).frames ∧
        (getPresentationPosition K (getPresentationPosition K rw.state e1).state e2).timestamp
          = (getPresentationPosition K rw.state e1).timestamp ∧
        (getPresentationPosition K rw.state e1).status
          = K.processReturnResult rec.presentationPositionRetval ∧
        (K.processReturnResult rec.presentationPositionRetval = K.OK →
          (getPresentationPosition K rw.state e1).frames = some rec.frames ∧
          (getPresentationPosition K rw.state e1).timestamp = some rec.timeStamp.toTimespec)) := by
  refine ⟨?_, ?_⟩
  · intro s env hstream hlatch hfresh
    rw [getPresentationPosition_cached K s env hstream hlatch hfresh]
    refine ⟨rfl, rfl, rfl, rfl, ?_, ?_⟩
    · intro h; simp [h]
    · intro h; simp [h]
  · intro s bytes envW pre rest w rec e1 e2 hstream hlatch hchan hwaits hpre hflag hrec hok
      h1a h1b h2a h2b
    obtain ⟨rw, hrw, hstatus, hst, hl, hpp⟩ :=
      write_success_cache K s bytes envW pre rest w rec hstream hchan hwaits hpre hflag hrec hok
    have hf1 : u64sub (getCurrentTimeMs e1.timeNow) rw.state.mPPosFromWrite.obtained ≤ 1000 := by
      rw [hpp, u64sub_of_le _ _ (getCurrentTimeMs_lt _) h1a]
      exact h1b
    have hf2 : u64sub (getCurrentTimeMs e2.timeNow) rw.state.mPPosFromWrite.obtained ≤ 1000 := by
      rw [hpp, u64sub_of_le _ _ (getCurrentTimeMs_lt _) h2a]
      exact h2b
    have hl1 : rw.state.mGetPresentationPositionNotSupported = false := hl.trans hlatch
    have hc1 := getPresentationPosition_cached K rw.state e1 hst hl1 hf1
    have hc2 := getPresentationPosition_cached K rw.state e2 hst hl1 hf2
    have hs1 : (getPresentationPosition K rw.state e1).state = rw.state := by rw [hc1]
    refine ⟨rw, hrw, hstatus, ?_⟩
    rw [hs1, hc2, hc1]
    refine ⟨rfl, rfl, rfl, rfl, rfl, ?_, ?_⟩
    · show rw.state.mPPosFromWrite.status = _
      rw [hpp]
    · intro h
      show (if rw.state.mPPosFromWrite.status = K.OK then some rw.state.mPPosFromWrite.frames
          else none) = _ ∧
        (if rw.state.mPPosFromWrite.status = K.OK then some rw.state.mPPosFromWrite.ts
          else none) = _
      rw [hpp]
      simp [h]

/-- A run of C8: two queries 400 and 900 microseconds after a write that cached
1024 frames. -/
theorem position_query_within_1ms_uses_cache_witness :
    ∃ rw, write android freshOut 6000 envDrained = Except.ok rw ∧ rw.status = android.OK ∧
      (getPresentationPosition android rw.state envSoon).trace = [] ∧
      (getPresentationPosition android
        (getPresentationPosition android rw.state envSoon).state envSoonAgain).trace = [] ∧
      (getPresentationPosition android
        (getPresentationPosition android rw.state envSoon).state envSoonAgain).status
        = (getPresentationPosition android rw.state envSoon).status ∧
      (getPresentationPosition android
        (getPresentationPosition android rw.state envSoon).state envSoonAgain).frames
        = (getPresentationPosition android rw.state envSoon).frames ∧
      (getPresentationPosition android
        (getPresentationPosition android rw.state envSoon).state envSoonAgain).timestamp
        = (getPresentationPosition android rw.state envSoon).timestamp ∧
      (getPresentationPosition android rw.state envSoon).status
        = android.processReturnResult status4096.presentationPositionRetval ∧
      (android.processReturnResult status4096.presentationPositionRetval = android.OK →
        (getPresentationPosition android rw.state envSoon).frames = some status4096.frames ∧
        (getPresentationPosition android rw.state envSoon).timestamp
          = some status4096.timeStamp.toTimespec) :=
  (position_query_within_1ms_uses_cache android).2 freshOut 6000 envDrained [] []
    { ret := 0, efState := 2 } status4096 envSoon envSoonAgain rfl rfl
    (Or.inr ⟨rfl, by decide, rfl, by decide⟩) rfl (by intro x hx; cases hx) (by decide) rfl rfl
    (by decide) (by decide) (by decide) (by decide)

/-- The loop of `write` changes neither the endpoint pointer nor the latch. -/
theorem writeWait_keeps (K : Externals) (s : StreamOutHalHidl) (env : WriteEnv) :
    ∀ (ws : List WaitOutcome) (r : WriteRet), writeWait K s env ws = Except.ok r →
      r.state.mStream = s.mStream ∧
      r.state.mGetPresentationPositionNotSupported = s.mGetPresentationPositionNotSupported := by
  intro ws
  induction ws with
  | nil => intro r h; simp [writeWait] at h
  | cons w ws ih =>
    intro r h
    rw [writeWait] at h
    by_cases hflag : w.efState &&& K.NOT_FULL ≠ 0
    · rw [if_pos hflag] at h
      cases hs : s.mStatusMQ with
      | none => simp [hs] at h
      | some sq =>
        simp only [hs] at h
        by_cases hok : (env.statusRead.getD WriteStatus.init).writeRetval = Result.OK
        · rw [if_pos hok] at h
          cases h
          exact ⟨rfl, rfl⟩
        · rw [if_neg hok] at h
          cases h
          exact ⟨rfl, rfl⟩
    · rw [if_neg hflag] at h
      by_cases hret : w.ret = -K.EAGAIN
      · rw [if_pos hret] at h
        cases hrec : writeWait K s env ws with
        | error e => simp [hrec] at h
        | ok r1 =>
          simp only [hrec] at h
          cases h
          exact ih r1 hrec
      · rw [if_neg hret] at h
        cases h
        exact ⟨rfl, rfl⟩

/-- The transfer part of `write` changes neither the endpoint pointer nor the
latch. -/
theorem writeTransfer_keeps (K : Externals) (s : StreamOutHalHidl) (bytes : Nat)
    (env : WriteEnv) (r : WriteRet) (h : writeTransfer K s bytes env = Except.ok r) :
    r.state.mStream = s.mStream ∧
    r.state.mGetPresentationPositionNotSupported = s.mGetPresentationPositionNotSupported := by
  unfold writeTransfer at h
  cases hd : s.mDataMQ with
  | none => simp [hd] at h
  | some q =>
    cases he : s.mEfGroup with
    | none => simp [hd, he] at h
    | some e =>
      simp only [hd, he] at h
      split at h
      · rename_i r1 hr1
        cases h
        have hk := writeWait_keeps K _ env _ r1 hr1
        exact hk
      · cases h

/-- A call of `write` changes neither the endpoint pointer nor the latch. -/
theorem write_keeps (K : Externals) (s : StreamOutHalHidl) (bytes : Nat) (env : WriteEnv)
    (r : WriteRet) (h : write K s bytes env = Except.ok r) :
    r.state.mStream = s.mStream ∧
    r.state.mGetPresentationPositionNotSupported = s.mGetPresentationPositionNotSupported := by
  unfold write at h
  by_cases hstream : s.mStream = false
  · rw [if_pos hstream] at h
    cases h
    exact ⟨rfl, rfl⟩
  · rw [if_neg hstream] at h
    by_cases h0 : bytes = 0 ∧ s.mDataMQ = none
    · rw [if_pos h0] at h
      cases h
      exact ⟨rfl, rfl⟩
    · rw [if_neg h0] at h
      obtain ⟨hk1, hk2, hk3⟩ := prepareForWriting_keeps K s bytes env.prepare
      cases hd : s.mDataMQ with
      | some q =>
        simp only [hd] at h
        exact writeTransfer_keeps K s bytes env r h
      | none =>
        simp only [hd] at h
        by_cases hp : (prepareForWriting K s bytes env.prepare).status ≠ K.OK
        · rw [if_pos hp] at h
          cases h
          exact ⟨hk3, hk2⟩
        · rw [if_neg hp] at h
          split at h
          · rename_i r1 hr1
            cases h
            obtain ⟨ha, hb⟩ := writeTransfer_keeps K _ bytes env r1 hr1
            exact ⟨ha.trans hk3, hb.trans hk2⟩
          · cases h

/-- With the latch set, a position query returns `INVALID_OPERATION` at once. -/
theorem getPresentationPosition_latched (K : Externals) (s : StreamOutHalHidl)
    (env : PositionEnv) (hstream : s.mStream = true)
    (hlatch : s.mGetPresentationPositionNotSupported = true) :
    getPresentationPosition K s env =
      { status := K.INVALID_OPERATION, frames := none, timestamp := none
        state := s, trace := [] } := by
  unfold getPresentationPosition
  simp [hstream, hlatch]

/-- A position query keeps the endpoint pointer and never clears the latch. -/
theorem getPresentationPosition_keeps (K : Externals) (s : StreamOutHalHidl)
    (env : PositionEnv) :
    (getPresentationPosition K s env).state.mStream = s.mStream ∧
    (s.mGetPresentationPositionNotSupported = true →
      (getPresentationPosition K s env).state.mGetPresentationPositionNotSupported = true) := by
  unfold getPresentationPosition
  split_ifs
  · exact ⟨rfl, fun h => h⟩
  · exact ⟨rfl, fun h => h⟩
  · exact ⟨rfl, fun h => h⟩
  · exact ⟨rfl, fun h => h⟩
  · cases env.reply with
    | none => exact ⟨rfl, fun h => h⟩
    | some rep =>
      simp only []
      split_ifs
      · exact ⟨rfl, fun _ => rfl⟩
      · exact ⟨rfl, fun h => h⟩

/-- No operation on the session removes the endpoint or clears the latch. -/
theorem runOut_keeps (K : Externals) :
    ∀ (ops : List OutOp) (s s1 : StreamOutHalHidl) (tr : List Event),
      runOut K s ops = Except.ok (s1, tr) →
      s1.mStream = s.mStream ∧
      (s.mGetPresentationPositionNotSupported = true →
        s1.mGetPresentationPositionNotSupported = true) := by
  intro ops
  induction ops with
  | nil =>
    intro s s1 tr h
    simp only [runOut] at h
    cases h
    exact ⟨rfl, fun h => h⟩
  | cons op ops ih =>
    intro s s1 tr h
    rw [runOut] at h
    cases hstep : stepOut K s op with
    | error f => simp [hstep] at h
    | ok res =>
      obtain ⟨s2, tr2⟩ := res
      simp only [hstep] at h
      cases hrun : runOut K s2 ops with
      | error f => simp [hrun] at h
      | ok res2 =>
        obtain ⟨s3, tr3⟩ := res2
        simp only [hrun] at h
        obtain ⟨ha, hb⟩ := ih s2 s3 tr3 hrun
        cases h
        have hstep2 : s2.mStream = s.mStream ∧
            (s.mGetPresentationPositionNotSupported = true →
              s2.mGetPresentationPositionNotSupported = true) := by
          cases op with
          | write bytes env =>
            simp only [stepOut] at hstep
            cases hw : write K s bytes env with
            | error f => simp [hw] at hstep
            | ok r =>
              simp only [hw] at hstep
              cases hstep
              obtain ⟨h1, h2⟩ := write_keeps K s bytes env r hw
              exact ⟨h1, fun h => h2.trans h⟩
          | getPresentationPosition env =>
            simp only [stepOut] at hstep
            cases hstep
            exact getPresentationPosition_keeps K s env
          | peerDrain n =>
            simp only [stepOut] at hstep
            cases hstep
            exact ⟨rfl, fun h => h⟩
        exact ⟨ha.trans hstep2.1, fun h => hb (hstep2.2 h)⟩

/-- C9. When a call of `getPresentationPosition` makes its round trip (endpoint
present, latch unset, cached position older than 1000 clock units) and the
endpoint reports `NOT_SUPPORTED`, the latch is set; whatever sequence of
`write` calls, position queries and peer activity follows, the latch is still
set, and every later position query, at every clock value and whatever the
cache holds, returns `INVALID_OPERATION`, writes no output, leaves the object
as it is and makes no call to the endpoint. -/
theorem position_not_supported_is_latched (K : Externals) (s : StreamOutHalHidl)
    (env : PositionEnv) (rep : PositionReply)
    (hstream : s.mStream = true) (hlatch : s.mGetPresentationPositionNotSupported = false)
    (hstale : ¬ u64sub (getCurrentTimeMs env.timeNow) s.mPPosFromWrite.obtained ≤ 1000)
    (hreply : env.reply = some rep) (hns : rep.retval = Result.NOT_SUPPORTED) :
    (getPresentationPosition K s env).trace = [Event.getPresentationPosition] ∧
    (getPresentationPosition K s env).state.mGetPresentationPositionNotSupported = true ∧
    ∀ (ops : List OutOp) (s1 : StreamOutHalHidl) (tr : List Event),
      runOut K (getPresentationPosition K s env).state ops = Except.ok (s1, tr) →
      s1.mGetPresentationPositionNotSupported = true ∧
      ∀ env1 : PositionEnv,
        (getPresentationPosition K s1 env1).status = K.INVALID_OPERATION ∧
        (getPresentationPosition K s1 env1).trace = [] ∧
        roundTrips (getPresentationPosition K s1 env1).trace = 0 ∧
        (getPresentationPosition K s1 env1).frames = none ∧
        (getPresentationPosition K s1 env1).timestamp = none ∧
        (getPresentationPosition K s1 env1).state = s1 := by
  have hcall : getPresentationPosition K s env =
      { status := K.processReturn true (some rep.retval), frames := none, timestamp := none
        state := { s with mGetPresentationPositionNotSupported := true }
        trace := [Event.getPresentationPosition] } := by
    unfold getPresentationPosition
    simp [hstream, hlatch, hstale, hreply, hns]
  rw [hcall]
  refine ⟨rfl, rfl, ?_⟩
  intro ops s1 tr hrun
  obtain ⟨h1, h2⟩ := runOut_keeps K ops _ s1 tr hrun
  have hs1 : s1.mStream = true := h1.trans hstream
  have hl1 : s1.mGetPresentationPositionNotSupported = true := h2 rfl
  refine ⟨hl1, ?_⟩
  intro env1
  rw [getPresentationPosition_latched K s1 env1 hs1 hl1]
  exact ⟨rfl, rfl, rfl, rfl, rfl, rfl⟩

/-- A run of C9: the endpoint reports `NOT_SUPPORTED`, then a write caches an
`OK` position, and the query 400 microseconds later is still refused. -/
theorem position_not_supported_is_latched_witness :
    (getPresentationPosition android
        (getPresentationPosition android freshOut envUnsupported).state envSoon).status
      = android.INVALID_OPERATION ∧
    (∃ s1 tr,
      runOut android (getPresentationPosition android freshOut envUnsupported).state
        [OutOp.write 6000 envDrained] = Except.ok (s1, tr) ∧
      s1.mPPosFromWrite.status = android.OK ∧
      (getPresentationPosition android s1 envSoon).status = android.INVALID_OPERATION ∧
      (getPresentationPosition android s1 envSoon).trace = []) :=
  ⟨((position_not_supported_is_latched android freshOut envUnsupported
        { retval := Result.NOT_SUPPORTED, frames := 0, timeStamp := { tvSec := 0, tvNSec := 0 } }
        rfl rfl (by decide) rfl rfl).2.2 [] _ [] rfl).2 envSoon |>.1,
    ⟨_, _, rfl, by decide,
      (((position_not_supported_is_latched android freshOut envUnsupported
        { retval := Result.NOT_SUPPORTED, frames := 0, timeStamp := { tvSec := 0, tvNSec := 0 } }
        rfl rfl (by decide) rfl rfl).2.2 [OutOp.write 6000 envDrained] _ _ rfl).2 envSoon).1,
      (((position_not_supported_is_latched android freshOut envUnsupported
        { retval := Result.NOT_SUPPORTED, frames := 0, timeStamp := { tvSec := 0, tvNSec := 0 } }
        rfl rfl (by decide) rfl rfl).2.2 [OutOp.write 6000 envDrained] _ _ rfl).2 envSoon).2.1⟩⟩

/-- C10, as the code has it.  A call of `getPresentationPosition` that makes its
round trip (endpoint present, latch unset, cached position older than 1000
clock units) does not write the cached position: status, frames, timestamp
and `obtained` of the cache are what they were.  The call returns the mapped
outcome of the round trip and outputs the frames and timestamp of the
endpoint exactly when the reported result is `OK`.  Unless the endpoint
reported `NOT_SUPPORTED` the whole object is unchanged, so a query that
follows at the same clock value makes a round trip again. -/
theorem position_round_trip_leaves_cache (K : Externals) (s : StreamOutHalHidl)
    (env : PositionEnv)
    (hstream : s.mStream = true) (hlatch : s.mGetPresentationPositionNotSupported = false)
    (hstale : ¬ u64sub (getCurrentTimeMs env.timeNow) s.mPPosFromWrite.obtained ≤ 1000) :
    (getPresentationPosition K s env).trace = [Event.getPresentationPosition] ∧
    (getPresentationPosition K s env).state.mPPosFromWrite = s.mPPosFromWrite ∧
    (env.reply = none →
      (getPresentationPosition K s env).status = K.processReturn false none ∧
      (getPresentationPosition K s env).frames = none ∧
      (getPresentationPosition K s env).timestamp = none ∧
      (getPresentationPosition K s env).state = s) ∧
    (∀ rep, env.reply = some rep →
      (getPresentationPosition K s env).status = K.processReturn true (some rep.retval) ∧
      (rep.retval = Result.OK →
        (getPresentationPosition K s env).frames = some rep.frames ∧
        (getPresentationPosition K s env).timestamp = some rep.timeStamp.toTimespec) ∧
      (rep.retval ≠ Result.OK →
        (getPresentationPosition K s env).frames = none ∧
        (getPresentationPosition K s env).timestamp = none) ∧
      (rep.retval ≠ Result.NOT_SUPPORTED → (getPresentationPosition K s env).state = s)) ∧
    ((∀ rep, env.reply = some rep → rep.retval ≠ Result.NOT_SUPPORTED) →
      ∀ env2 : PositionEnv, env2.timeNow = env.timeNow →
        (getPresentationPosition K (getPresentationPosition K s env).state env2).trace
          = [Event.getPresentationPosition]) := by
  have hstate : (∀ rep, env.reply = some rep → rep.retval ≠ Result.NOT_SUPPORTED) →
      (getPresentationPosition K s env).state = s := by
    intro h
    unfold getPresentationPosition
    cases hr : env.reply with
    | none => simp [hstream, hlatch, hstale]
    | some rep => simp [hstream, hlatch, hstale, h rep hr]
  have htrace : ∀ e : PositionEnv, e.timeNow = env.timeNow →
      (getPresentationPosition K s e).trace = [Event.getPresentationPosition] := by
    intro e he
    unfold getPresentationPosition
    cases hr : e.reply <;> simp [hstream, hlatch, he, hstale]
  refine ⟨htrace env rfl, ?_, ?_, ?_, ?_⟩
  · unfold getPresentationPosition
    cases hr : env.reply with
    | none => simp [hstream, hlatch, hstale]
    | some rep =>
      by_cases hns : rep.retval = Result.NOT_SUPPORTED <;> simp [hstream, hlatch, hstale, hns]
  · intro hr
    unfold getPresentationPosition
    simp [hstream, hlatch, hstale, hr]
  · intro rep hr
    unfold getPresentationPosition
    simp only [hstream, hlatch, hstale, hr]
    refine ⟨by simp, ?_, ?_, ?_⟩
    · intro h; simp [h]
    · intro h; simp [h]
    · intro h; simp [h]
  · intro h env2 he
    rw [hstate h]
    exact htrace env2 he

/-- A run of the statement above on the fresh session at 5 s. -/
theorem position_round_trip_leaves_cache_witness :
    (getPresentationPosition android freshOut envLate).trace = [Event.getPresentationPosition] ∧
    (getPresentationPosition android freshOut envLate).state.mPPosFromWrite
      = freshOut.mPPosFromWrite :=
  ⟨(position_round_trip_leaves_cache android freshOut envLate rfl rfl (by decide)).1,
    (position_round_trip_leaves_cache android freshOut envLate rfl rfl (by decide)).2.1⟩

/-- C10 fails as stated.  On the fresh session a query at 5 s makes a round trip
that returns `OK` with 1234 frames, yet afterwards the cached `obtained` is not
the current time and the cached frames are not those of the endpoint, and the
same query repeated at once makes a second round trip.  A round trip that
reports `INVALID_STATE` leaves the cached status at `OK`. -/
theorem position_round_trip_does_not_update_cache :
    (getPresentationPosition android freshOut envLate).trace = [Event.getPresentationPosition] ∧
    (getPresentationPosition android freshOut envLate).status = android.OK ∧
    (getPresentationPosition android freshOut envLate).frames = some 1234 ∧
    (getPresentationPosition android freshOut envLate).state.mPPosFromWrite.obtained
      ≠ getCurrentTimeMs envLate.timeNow ∧
    (getPresentationPosition android freshOut envLate).state.mPPosFromWrite.frames ≠ 1234 ∧
    (getPresentationPosition android
      (getPresentationPosition android freshOut envLate).state envLate).trace
      = [Event.getPresentationPosition] ∧
    (getPresentationPosition android freshOut envLateFailing).status = -61 ∧
    (getPresentationPosition android freshOut envLateFailing).state.mPPosFromWrite.status
      ≠ (getPresentationPosition android freshOut envLateFailing).status := by
  decide

/-- The two ways a negotiation for writing can end.  Either nothing but the
event flag member is touched and the status is one of the failure statuses, or
the status is `OK` and all three members are set, to valid queues. -/
theorem prepareForWriting_cases (K : Externals) (s : StreamOutHalHidl) (n : Nat)
    (env : PrepareEnv) :
    ((prepareForWriting K s n env).state.mDataMQ = s.mDataMQ ∧
      (prepareForWriting K s n env).state.mStatusMQ = s.mStatusMQ ∧
      ((prepareForWriting K s n env).status = K.NO_INIT ∨
        (prepareForWriting K s n env).status = K.processReturn false none ∨
        ∃ r, r ≠ Result.OK ∧ (prepareForWriting K s n env).status = K.processReturn true (some r))) ∨
    ((prepareForWriting K s n env).status = K.OK ∧
      ∃ q sq e, (prepareForWriting K s n env).state.mDataMQ = some q ∧
        (prepareForWriting K s n env).state.mStatusMQ = some sq ∧
        (prepareForWriting K s n env).state.mEfGroup = some e ∧
        q.isValid = true ∧ sq.isValid = true) := by
  unfold prepareForWriting
  cases hr : env.reply with
  | none => exact Or.inl ⟨rfl, rfl, Or.inr (Or.inl rfl)⟩
  | some rep =>
    simp only []
    by_cases hok : rep.retval = Result.OK
    · rw [if_pos hok]
      split_ifs with hc hcheck hcheck
      · exact Or.inl ⟨rfl, rfl, Or.inl rfl⟩
      · right
        simp only [Bool.or_eq_true, Bool.not_eq_true', not_or, Bool.not_eq_false,
          Option.isNone_iff_eq_none] at hcheck
        obtain ⟨⟨hv, hsv⟩, hef⟩ := hcheck
        obtain ⟨e, he⟩ := Option.ne_none_iff_exists'.mp hef
        exact ⟨rfl, rep.dataMQ, rep.statusMQ, e, rfl, rfl, he, hv, hsv⟩
      · exact Or.inl ⟨rfl, rfl, Or.inl rfl⟩
      · right
        simp only [Bool.or_eq_true, Bool.not_eq_true', not_or, Bool.not_eq_false,
          Option.isNone_iff_eq_none] at hcheck
        obtain ⟨⟨hv, hsv⟩, hef⟩ := hcheck
        obtain ⟨e, he⟩ := Option.ne_none_iff_exists'.mp hef
        exact ⟨rfl, rep.dataMQ, rep.statusMQ, e, rfl, rfl, he, hv, hsv⟩
    · rw [if_neg hok]
      exact Or.inl ⟨rfl, rfl, Or.inr (Or.inr ⟨rep.retval, hok, rfl⟩)⟩

/-- The two ways a negotiation for reading can end. -/
theorem prepareForReading_cases (K : Externals) (s : StreamInHalHidl) (n : Nat)
    (env : PrepareEnv) :
    ((prepareForReading K s n env).state.mDataMQ = s.mDataMQ ∧
      (prepareForReading K s n env).state.mStatusMQ = s.mStatusMQ ∧
      (prepareForReading K s n env).state.mStream = s.mStream ∧
      ((prepareForReading K s n env).status = K.NO_INIT ∨
        (prepareForReading K s n env).status = K.processReturn false none ∨
        ∃ r, r ≠ Result.OK ∧ (prepareForReading K s n env).status = K.processReturn true (some r))) ∨
    ((prepareForReading K s n env).status = K.OK ∧
      (prepareForReading K s n env).state.mStream = s.mStream ∧
      ∃ q sq e, (prepareForReading K s n env).state.mDataMQ = some q ∧
        (prepareForReading K s n env).state.mStatusMQ = some sq ∧
        (prepareForReading K s n env).state.mEfGroup = some e ∧
        q.isValid = true ∧ sq.isValid = true) := by
  unfold prepareForReading
  cases hr : env.reply with
  | none => exact Or.inl ⟨rfl, rfl, rfl, Or.inr (Or.inl rfl)⟩
  | some rep =>
    simp only []
    by_cases hok : rep.retval = Result.OK
    · rw [if_pos hok]
      split_ifs with hc hcheck hcheck
      · exact Or.inl ⟨rfl, rfl, rfl, Or.inl rfl⟩
      · right
        simp only [Bool.or_eq_true, Bool.not_eq_true', not_or, Bool.not_eq_false,
          Option.isNone_iff_eq_none] at hcheck
        obtain ⟨⟨hv, hsv⟩, hef⟩ := hcheck
        obtain ⟨e, he⟩ := Option.ne_none_iff_exists'.mp hef
        exact ⟨rfl, rfl, rep.dataMQ, rep.statusMQ, e, rfl, rfl, he, hv, hsv⟩
      · exact Or.inl ⟨rfl, rfl, rfl, Or.inl rfl⟩
      · right
        simp only [Bool.or_eq_true, Bool.not_eq_true', not_or, Bool.not_eq_false,
          Option.isNone_iff_eq_none] at hcheck
        obtain ⟨⟨hv, hsv⟩, hef⟩ := hcheck
        obtain ⟨e, he⟩ := Option.ne_none_iff_exists'.mp hef
        exact ⟨rfl, rfl, rep.dataMQ, rep.statusMQ, e, rfl, rfl, he, hv, hsv⟩
    · rw [if_neg hok]
      exact Or.inl ⟨rfl, rfl, rfl, Or.inr (Or.inr ⟨rep.retval, hok, rfl⟩)⟩

/-- The values of `android` satisfy what the streaming code relies on. -/
theorem android_sane : android.Sane :=
  { no_init_ne_ok := by decide
    transport_ne_ok := by decide
    result_ne_ok := by intro r hr; cases r <;> first | exact absurd rfl hr | decide }

/-- A negotiation for writing that returns `OK` has set all three members, to
valid queues. -/
theorem prepareForWriting_ok (K : Externals) (hK : K.Sane) (s : StreamOutHalHidl) (n : Nat)
    (env : PrepareEnv) (h : (prepareForWriting K s n env).status = K.OK) :
    ∃ q sq e, (prepareForWriting K s n env).state.mDataMQ = some q ∧
      (prepareForWriting K s n env).state.mStatusMQ = some sq ∧
      (prepareForWriting K s n env).state.mEfGroup = some e ∧
      q.isValid = true ∧ sq.isValid = true := by
  rcases prepareForWriting_cases K s n env with ⟨_, _, hst⟩ | ⟨_, hex⟩
  · rcases hst with h1 | h1 | ⟨r, hr, h1⟩
    · exact absurd (h1.symm.trans h) hK.no_init_ne_ok
    · exact absurd (h1.symm.trans h) hK.transport_ne_ok
    · exact absurd (h1.symm.trans h) (hK.result_ne_ok r hr)
  · exact hex

/-- A negotiation for reading that returns `OK` has set all three members, to
valid queues. -/
theorem prepareForReading_ok (K : Externals) (hK : K.Sane) (s : StreamInHalHidl) (n : Nat)
    (env : PrepareEnv) (h : (prepareForReading K s n env).status = K.OK) :
    ∃ q sq e, (prepareForReading K s n env).state.mDataMQ = some q ∧
      (prepareForReading K s n env).state.mStatusMQ = some sq ∧
      (prepareForReading K s n env).state.mEfGroup = some e ∧
      q.isValid = true ∧ sq.isValid = true := by
  rcases prepareForReading_cases K s n env with ⟨_, _, _, hst⟩ | ⟨_, _, hex⟩
  · rcases hst with h1 | h1 | ⟨r, hr, h1⟩
    · exact absurd (h1.symm.trans h) hK.no_init_ne_ok
    · exact absurd (h1.symm.trans h) hK.transport_ne_ok
    · exact absurd (h1.symm.trans h) (hK.result_ne_ok r hr)
  · exact hex

/-- A negotiation that does not return `OK` leaves data queue and status queue
as they were; the two queues are committed only on lines 367-368 and 594-595. -/
theorem prepare_failure_keeps_queues (K : Externals) (n : Nat) (env : PrepareEnv) :
    (∀ s : StreamOutHalHidl, (prepareForWriting K s n env).status ≠ K.OK →
      (prepareForWriting K s n env).state.mDataMQ = s.mDataMQ ∧
      (prepareForWriting K s n env).state.mStatusMQ = s.mStatusMQ) ∧
    (∀ s : StreamInHalHidl, (prepareForReading K s n env).status ≠ K.OK →
      (prepareForReading K s n env).state.mDataMQ = s.mDataMQ ∧
      (prepareForReading K s n env).state.mStatusMQ = s.mStatusMQ) := by
  refine ⟨?_, ?_⟩
  · intro s h
    rcases prepareForWriting_cases K s n env with ⟨h1, h2, _⟩ | ⟨hok, _⟩
    · exact ⟨h1, h2⟩
    · exact absurd hok h
  · intro s h
    rcases prepareForReading_cases K s n env with ⟨h1, h2, _⟩ | ⟨hok, _⟩
    · exact ⟨h1, h2⟩
    · exact absurd hok h

/-- C11, the code at the failing input.  The endpoint answers `OK` with a valid
data queue that has an event flag word and with an invalid status queue.
`prepareForWriting` on the fresh session returns `NO_INIT`, which is not `OK`,
and keeps neither queue, but the event flag that line 350 stored into
`mEfGroup` stays: the object is not the object before the call.
`prepareForReading` (line 577) does the same.  With a valid status queue the
same answer gives `OK` and all three members present. -/
theorem failed_negotiation_keeps_event_flag :
    (prepareForWriting android freshOut 6000 prepareStatusInvalid).status = android.NO_INIT ∧
    (prepareForWriting android freshOut 6000 prepareStatusInvalid).status ≠ android.OK ∧
    (prepareForWriting android freshOut 6000 prepareStatusInvalid).state.mDataMQ = none ∧
    (prepareForWriting android freshOut 6000 prepareStatusInvalid).state.mStatusMQ = none ∧
    freshOut.mEfGroup = none ∧
    (prepareForWriting android freshOut 6000 prepareStatusInvalid).state.mEfGroup
      = some EventFlag.mk ∧
    (prepareForWriting android freshOut 6000 prepareStatusInvalid).state ≠ freshOut ∧
    (prepareForReading android freshIn 256 prepareStatusInvalid).status ≠ android.OK ∧
    (prepareForReading android freshIn 256 prepareStatusInvalid).state.mDataMQ = none ∧
    (prepareForReading android freshIn 256 prepareStatusInvalid).state.mStatusMQ = none ∧
    freshIn.mEfGroup = none ∧
    (prepareForReading android freshIn 256 prepareStatusInvalid).state.mEfGroup
      = some EventFlag.mk ∧
    (prepareForReading android freshIn 256 prepareStatusInvalid).state ≠ freshIn ∧
    (prepareForWriting android freshOut 6000 prepareGood).status = android.OK ∧
    (prepareForWriting android freshOut 6000 prepareGood).state.established ∧
    (prepareForReading android freshIn 256 prepareGood).status = android.OK ∧
    (prepareForReading android freshIn 256 prepareGood).state.established := by
  decide

/-- A negotiation for writing started without a data queue ends in a state that
satisfies the channel invariant. -/
theorem prepareForWriting_inv (K : Externals) (s : StreamOutHalHidl) (n : Nat)
    (env : PrepareEnv) (hd : s.mDataMQ = none) :
    (prepareForWriting K s n env).state.channelInv := by
  intro h
  rcases prepareForWriting_cases K s n env with ⟨h1, _, _⟩ | ⟨_, q, sq, e, _, h2, h3, _⟩
  · rw [h1, hd] at h
    cases h
  · exact ⟨by rw [h2]; rfl, by rw [h3]; rfl⟩

/-- The transfer part of `write` keeps the channel invariant. -/
theorem writeTransfer_inv (K : Externals) (s : StreamOutHalHidl) (bytes : Nat)
    (env : WriteEnv) (r : WriteRet) (hinv : s.channelInv)
    (h : writeTransfer K s bytes env = Except.ok r) : r.state.channelInv := by
  cases hd : s.mDataMQ with
  | none =>
    unfold writeTransfer at h
    simp [hd] at h
  | some q =>
    obtain ⟨h2, h3⟩ := hinv (by rw [hd]; rfl)
    obtain ⟨sq, hsq⟩ := Option.isSome_iff_exists.mp h2
    obtain ⟨e, he⟩ := Option.isSome_iff_exists.mp h3
    rcases writeTransfer_sound K s bytes env q sq e hd hsq he with
      hw | ⟨r1, tr, hw, _, _, _, _, hs1, he1, _⟩
    · rw [hw] at h
      cases h
    · rw [hw] at h
      cases h
      intro _
      exact ⟨by rw [hs1]; exact h2, by rw [he1]; exact h3⟩

/-- A call of `write` keeps the channel invariant. -/
theorem write_inv (K : Externals) (s : StreamOutHalHidl) (bytes : Nat) (env : WriteEnv)
    (r : WriteRet) (hinv : s.channelInv) (h : write K s bytes env = Except.ok r) :
    r.state.channelInv := by
  unfold write at h
  by_cases hstream : s.mStream = false
  · rw [if_pos hstream] at h
    cases h
    exact hinv
  · rw [if_neg hstream] at h
    by_cases h0 : bytes = 0 ∧ s.mDataMQ = none
    · rw [if_pos h0] at h
      cases h
      exact hinv
    · rw [if_neg h0] at h
      cases hd : s.mDataMQ with
      | some q =>
        simp only [hd] at h
        exact writeTransfer_inv K s bytes env r hinv h
      | none =>
        simp only [hd] at h
        have hpinv := prepareForWriting_inv K s bytes env.prepare hd
        by_cases hp : (prepareForWriting K s bytes env.prepare).status ≠ K.OK
        · rw [if_pos hp] at h
          cases h
          exact hpinv
        · rw [if_neg hp] at h
          split at h
          · rename_i r1 hr1
            cases h
            have hk := writeTransfer_inv K _ bytes env r1 hpinv hr1
            exact hk
          · cases h

/-- On an established channel the transfer part of `write` follows no null
pointer. -/
theorem writeTransfer_no_null (K : Externals) (s : StreamOutHalHidl) (bytes : Nat)
    (env : WriteEnv) (q : DataMQ) (sq : StatusMQ) (e : EventFlag)
    (hd : s.mDataMQ = some q) (hs : s.mStatusMQ = some sq) (he : s.mEfGroup = some e) :
    writeTransfer K s bytes env ≠ Except.error Fault.nullDeref := by
  intro h
  rcases writeTransfer_sound K s bytes env q sq e hd hs he with hw | ⟨r1, tr, hw, _⟩
  · rw [hw] at h
    cases h
  · rw [hw] at h
    cases h

/-- In a state that satisfies the channel invariant `write` follows no null
pointer. -/
theorem write_no_null (K : Externals) (hK : K.Sane) (s : StreamOutHalHidl) (bytes : Nat)
    (env : WriteEnv) (hinv : s.channelInv) :
    write K s bytes env ≠ Except.error Fault.nullDeref := by
  intro h
  unfold write at h
  by_cases hstream : s.mStream = false
  · rw [if_pos hstream] at h
    cases h
  · rw [if_neg hstream] at h
    by_cases h0 : bytes = 0 ∧ s.mDataMQ = none
    · rw [if_pos h0] at h
      cases h
    · rw [if_neg h0] at h
      cases hd : s.mDataMQ with
      | some q =>
        simp only [hd] at h
        obtain ⟨h2, h3⟩ := hinv (by rw [hd]; rfl)
        obtain ⟨sq, hsq⟩ := Option.isSome_iff_exists.mp h2
        obtain ⟨e, he⟩ := Option.isSome_iff_exists.mp h3
        exact writeTransfer_no_null K s bytes env q sq e hd hsq he h
      | none =>
        simp only [hd] at h
        by_cases hp : (prepareForWriting K s bytes env.prepare).status ≠ K.OK
        · rw [if_pos hp] at h
          cases h
        · rw [if_neg hp] at h
          obtain ⟨q, sq, e, hq, hsq, he, _⟩ :=
            prepareForWriting_ok K hK s bytes env.prepare (not_not.mp hp)
          have hnn := writeTransfer_no_null K _ bytes env q sq e hq hsq he
          split at h
          · cases h
          · rename_i f hf
            cases h
            exact hnn hf

/-- A position query does not touch the three channel members. -/
theorem getPresentationPosition_channels (K : Externals) (s : StreamOutHalHidl)
    (env : PositionEnv) :
    (getPresentationPosition K s env).state.mDataMQ = s.mDataMQ ∧
    (getPresentationPosition K s env).state.mStatusMQ = s.mStatusMQ ∧
    (getPresentationPosition K s env).state.mEfGroup = s.mEfGroup := by
  unfold getPresentationPosition
  split_ifs
  · exact ⟨rfl, rfl, rfl⟩
  · exact ⟨rfl, rfl, rfl⟩
  · exact ⟨rfl, rfl, rfl⟩
  · exact ⟨rfl, rfl, rfl⟩
  · cases env.reply with
    | none => exact ⟨rfl, rfl, rfl⟩
    | some rep =>
      simp only []
      split_ifs
      · exact ⟨rfl, rfl, rfl⟩
      · exact ⟨rfl, rfl, rfl⟩

/-- Every reachable state of an outbound session satisfies the channel
invariant. -/
theorem reachableOut_inv (K : Externals) (s : StreamOutHalHidl) (h : ReachableOut K s) :
    s.channelInv := by
  induction h with
  | create stream =>
    intro h
    cases h
  | write s bytes env r _ hw ih => exact write_inv K s bytes env r ih hw
  | getPresentationPosition s env _ ih =>
    obtain ⟨h1, h2, h3⟩ := getPresentationPosition_channels K s env
    intro h
    rw [h1] at h
    rw [h2, h3]
    exact ih h
  | prepareForWriting s n env _ hd _ => exact prepareForWriting_inv K s n env hd
  | peerDrain s n _ ih =>
    intro h
    have hs : s.mDataMQ.isSome = true := by
      cases hd : s.mDataMQ with
      | none => simp [hd] at h
      | some q => rfl
    exact ih hs

/-- A negotiation for reading started without a data queue ends in a state that
satisfies the channel invariant. -/
theorem prepareForReading_inv (K : Externals) (s : StreamInHalHidl) (n : Nat)
    (env : PrepareEnv) (hd : s.mDataMQ = none) :
    (prepareForReading K s n env).state.channelInv := by
  intro h
  rcases prepareForReading_cases K s n env with ⟨h1, _, _⟩ | ⟨_, _, q, sq, e, _, h2, h3, _⟩
  · rw [h1, hd] at h
    cases h
  · exact ⟨by rw [h2]; rfl, by rw [h3]; rfl⟩

/-- The loop of `read` keeps the channel invariant. -/
theorem readWait_inv (K : Externals) (s : StreamInHalHidl) (bytes : Nat)
    (status : Option status_t) (env : ReadEnv) (hinv : s.channelInv) :
    ∀ (ws : List WaitOutcome) (r : ReadRet),
      readWait K s bytes status env ws = Except.ok r → r.state.channelInv := by
  intro ws
  induction ws with
  | nil => intro r h; simp [readWait] at h
  | cons w ws ih =>
    intro r h
    rw [readWait] at h
    by_cases hflag : w.efState &&& K.NOT_EMPTY ≠ 0
    · rw [if_pos hflag] at h
      cases hd : s.mDataMQ with
      | none => simp [hd] at h
      | some q =>
        cases hs : s.mStatusMQ with
        | none => simp [hd, hs] at h
        | some sq =>
          obtain ⟨_, h3⟩ := hinv (by rw [hd]; rfl)
          simp only [hd, hs] at h
          by_cases hok : (env.statusRead.getD ReadStatus.init).retval = Result.OK
          · rw [if_pos hok] at h
            cases h
            intro _
            exact ⟨rfl, h3⟩
          · rw [if_neg hok] at h
            cases h
            intro _
            exact ⟨rfl, h3⟩
    · rw [if_neg hflag] at h
      by_cases hret : w.ret = -K.EAGAIN
      · rw [if_pos hret] at h
        cases hrec : readWait K s bytes status env ws with
        | error e => simp [hrec] at h
        | ok r1 =>
          simp only [hrec] at h
          cases h
          exact ih r1 hrec
      · rw [if_neg hret] at h
        cases h
        exact hinv

/-- With data queue and status queue present the loop of `read` follows no null
pointer. -/
theorem readWait_no_null (K : Externals) (s : StreamInHalHidl) (bytes : Nat)
    (status : Option status_t) (env : ReadEnv) (q : DataMQ) (sq : StatusMQ)
    (hd : s.mDataMQ = some q) (hs : s.mStatusMQ = some sq) :
    ∀ ws : List WaitOutcome,
      readWait K s bytes status env ws ≠ Except.error Fault.nullDeref := by
  intro ws
  induction ws with
  | nil => intro h; simp [readWait] at h
  | cons w ws ih =>
    intro h
    rw [readWait] at h
    by_cases hflag : w.efState &&& K.NOT_EMPTY ≠ 0
    · rw [if_pos hflag] at h
      simp only [hd, hs] at h
      by_cases hok : (env.statusRead.getD ReadStatus.init).retval = Result.OK
      · rw [if_pos hok] at h
        cases h
      · rw [if_neg hok] at h
        cases h
    · rw [if_neg hflag] at h
      by_cases hret : w.ret = -K.EAGAIN
      · rw [if_pos hret] at h
        cases hrec : readWait K s bytes status env ws with
        | error e =>
          simp only [hrec] at h
          cases h
          exact ih hrec
        | ok r1 => simp [hrec] at h
      · rw [if_neg hret] at h
        cases h

/-- The wait part of `read` keeps the channel invariant. -/
theorem readTransfer_inv (K : Externals) (s : StreamInHalHidl) (bytes : Nat)
    (status : Option status_t) (env : ReadEnv) (r : ReadRet) (hinv : s.channelInv)
    (h : readTransfer K s bytes status env = Except.ok r) : r.state.channelInv := by
  unfold readTransfer at h
  cases he : s.mEfGroup with
  | none => simp [he] at h
  | some e =>
    simp only [he] at h
    refine readWait_inv K _ bytes status env ?_ env.waits r h
    intro hsome
    have hs : s.mDataMQ.isSome = true := by
      cases hd : s.mDataMQ with
      | none => simp [hd] at hsome
      | some q => rfl
    obtain ⟨h2, _⟩ := hinv hs
    exact ⟨h2, rfl⟩

/-- On an established channel the wait part of `read` follows no null pointer. -/
theorem readTransfer_no_null (K : Externals) (s : StreamInHalHidl) (bytes : Nat)
    (status : Option status_t) (env : ReadEnv) (q : DataMQ) (sq : StatusMQ) (e : EventFlag)
    (hd : s.mDataMQ = some q) (hs : s.mStatusMQ = some sq) (he : s.mEfGroup = some e) :
    readTransfer K s bytes status env ≠ Except.error Fault.nullDeref := by
  have heq : readTransfer K s bytes status env =
      readWait K { s with mDataMQ := some (q.peerFill env.peerFill) } bytes status env
        env.waits := by
    unfold readTransfer
    simp [he, hd]
  rw [heq]
  exact readWait_no_null K { s with mDataMQ := some (q.peerFill env.peerFill) } bytes status env
    (q.peerFill env.peerFill) sq rfl hs env.waits

/-- A call of `read` keeps the channel invariant. -/
theorem read_inv (K : Externals) (s : StreamInHalHidl) (bytes : Nat) (env : ReadEnv)
    (r : ReadRet) (hinv : s.channelInv) (h : read K s bytes env = Except.ok r) :
    r.state.channelInv := by
  unfold read at h
  by_cases hstream : s.mStream = false
  · rw [if_pos hstream] at h
    cases h
    exact hinv
  · rw [if_neg hstream] at h
    by_cases h0 : bytes = 0 ∧ s.mDataMQ = none
    · rw [if_pos h0] at h
      cases h
      exact hinv
    · rw [if_neg h0] at h
      cases hd : s.mDataMQ with
      | some q =>
        simp only [hd] at h
        exact readTransfer_inv K s bytes none env r hinv h
      | none =>
        simp only [hd] at h
        have hpinv := prepareForReading_inv K s bytes env.prepare hd
        by_cases hp : (prepareForReading K s bytes env.prepare).status ≠ K.OK
        · rw [if_pos hp] at h
          cases h
          exact hpinv
        · rw [if_neg hp] at h
          cases he : (prepareForReading K s bytes env.prepare).state.mEfGroup with
          | none => simp [he] at h
          | some e =>
            simp only [he] at h
            split at h
            · rename_i r1 hr1
              cases h
              have hk := readTransfer_inv K _ bytes _ env r1 hpinv hr1
              exact hk
            · cases h

/-- In a state that satisfies the channel invariant `read` follows no null
pointer. -/
theorem read_no_null (K : Externals) (hK : K.Sane) (s : StreamInHalHidl) (bytes : Nat)
    (env : ReadEnv) (hinv : s.channelInv) :
    read K s bytes env ≠ Except.error Fault.nullDeref := by
  intro h
  unfold read at h
  by_cases hstream : s.mStream = false
  · rw [if_pos hstream] at h
    cases h
  · rw [if_neg hstream] at h
    by_cases h0 : bytes = 0 ∧ s.mDataMQ = none
    · rw [if_pos h0] at h
      cases h
    · rw [if_neg h0] at h
      cases hd : s.mDataMQ with
      | some q =>
        simp only [hd] at h
        obtain ⟨h2, h3⟩ := hinv (by rw [hd]; rfl)
        obtain ⟨sq, hsq⟩ := Option.isSome_iff_exists.mp h2
        obtain ⟨e, he⟩ := Option.isSome_iff_exists.mp h3
        exact readTransfer_no_null K s bytes none env q sq e hd hsq he h
      | none =>
        simp only [hd] at h
        by_cases hp : (prepareForReading K s bytes env.prepare).status ≠ K.OK
        · rw [if_pos hp] at h
          cases h
        · rw [if_neg hp] at h
          obtain ⟨q, sq, e, hq, hsq, he, _⟩ :=
            prepareForReading_ok K hK s bytes env.prepare (not_not.mp hp)
          have hnn := readTransfer_no_null K _ bytes
            (some (prepareForReading K s bytes env.prepare).status) env q sq e hq hsq he
          simp only [he] at h
          split at h
          · cases h
          · rename_i f hf
            cases h
            exact hnn hf

/-- Every reachable state of an inbound session satisfies the channel
invariant. -/
theorem reachableIn_inv (K : Externals) (s : StreamInHalHidl) (h : ReachableIn K s) :
    s.channelInv := by
  induction h with
  | create stream =>
    intro h
    cases h
  | read s bytes env r _ hr ih => exact read_inv K s bytes env r ih hr
  | prepareForReading s n env _ hd _ => exact prepareForReading_inv K s n env hd
  | peerFill s n _ ih =>
    intro h
    have hs : s.mDataMQ.isSome = true := by
      cases hd : s.mDataMQ with
      | none => simp [hd] at h
      | some q => rfl
    exact ih hs

/-- The states a sequence of operations leads to are reachable. -/
theorem runOut_reachable (K : Externals) :
    ∀ (ops : List OutOp) (s s1 : StreamOutHalHidl) (tr : List Event),
      ReachableOut K s → runOut K s ops = Except.ok (s1, tr) → ReachableOut K s1 := by
  intro ops
  induction ops with
  | nil =>
    intro s s1 tr hs h
    simp only [runOut] at h
    cases h
    exact hs
  | cons op ops ih =>
    intro s s1 tr hs h
    rw [runOut] at h
    cases hstep : stepOut K s op with
    | error f => simp [hstep] at h
    | ok res =>
      obtain ⟨s2, tr2⟩ := res
      simp only [hstep] at h
      cases hrun : runOut K s2 ops with
      | error f => simp [hrun] at h
      | ok res2 =>
        obtain ⟨s3, tr3⟩ := res2
        simp only [hrun] at h
        have hs2 : ReachableOut K s2 := by
          cases op with
          | write bytes env =>
            simp only [stepOut] at hstep
            cases hw : write K s bytes env with
            | error f => simp [hw] at hstep
            | ok r =>
              simp only [hw] at hstep
              cases hstep
              exact ReachableOut.write s bytes env r hs hw
          | getPresentationPosition env =>
            simp only [stepOut] at hstep
            cases hstep
            exact ReachableOut.getPresentationPosition s env hs
          | peerDrain n =>
            simp only [stepOut] at hstep
            cases hstep
            exact ReachableOut.peerDrain s n hs
        have hs3 := ih s2 s3 tr3 hs2 hrun
        cases h
        exact hs3

/-- C12. In every state of an outbound or inbound session that is reachable
from construction by calls of `write` or `read`, position queries,
negotiations (failed or successful) and activity of the peer, a data queue
that is present comes with a present status queue and a present event flag.
This holds in particular for the state after any sequence of operations run
on a freshly constructed session.  Consequently, provided the failure
statuses of a negotiation are not `OK`, `write` and `read` called in a
reachable state never follow a null `mDataMQ`, `mStatusMQ` or `mEfGroup`: the
call returns or is still inside `wait` at the end of the script. -/
theorem reachable_sessions_keep_channel_invariant (K : Externals) :
    (∀ s : StreamOutHalHidl, ReachableOut K s →
      s.mDataMQ.isSome = true → s.mStatusMQ.isSome = true ∧ s.mEfGroup.isSome = true) ∧
    (∀ s : StreamInHalHidl, ReachableIn K s →
      s.mDataMQ.isSome = true → s.mStatusMQ.isSome = true ∧ s.mEfGroup.isSome = true) ∧
    (∀ (stream : Bool) (ops : List OutOp) (s : StreamOutHalHidl) (tr : List Event),
      runOut K (StreamOutHalHidl.create K stream) ops = Except.ok (s, tr) →
      s.mDataMQ.isSome = true → s.mStatusMQ.isSome = true ∧ s.mEfGroup.isSome = true) ∧
    (K.Sane → ∀ s : StreamOutHalHidl, ReachableOut K s → ∀ (bytes : Nat) (env : WriteEnv),
      write K s bytes env ≠ Except.error Fault.nullDeref ∧
      (write K s bytes env = Except.error Fault.stillWaiting ∨
        ∃ r, write K s bytes env = Except.ok r)) ∧
    (K.Sane → ∀ s : StreamInHalHidl, ReachableIn K s → ∀ (bytes : Nat) (env : ReadEnv),
      read K s bytes env ≠ Except.error Fault.nullDeref ∧
      (read K s bytes env = Except.error Fault.stillWaiting ∨
        ∃ r, read K s bytes env = Except.ok r)) := by
  refine ⟨?_, ?_, ?_, ?_, ?_⟩
  · intro s hs
    exact reachableOut_inv K s hs
  · intro s hs
    exact reachableIn_inv K s hs
  · intro stream ops s tr hrun
    exact reachableOut_inv K s (runOut_reachable K ops _ s tr (ReachableOut.create stream) hrun)
  · intro hK s hs bytes env
    have hnn := write_no_null K hK s bytes env (reachableOut_inv K s hs)
    refine ⟨hnn, ?_⟩
    cases hw : write K s bytes env with
    | ok r => exact Or.inr ⟨r, rfl⟩
    | error f =>
      cases f with
      | nullDeref => exact absurd hw hnn
      | stillWaiting => exact Or.inl rfl
  · intro hK s hs bytes env
    have hnn := read_no_null K hK s bytes env (reachableIn_inv K s hs)
    refine ⟨hnn, ?_⟩
    cases hr : read K s bytes env with
    | ok r => exact Or.inr ⟨r, rfl⟩
    | error f =>
      cases f with
      | nullDeref => exact absurd hr hnn
      | stillWaiting => exact Or.inl rfl

/-- A run of C12: the state after the first write on the fresh session is
reachable, has all three channel members, and a further write on it follows no
null pointer. -/
theorem reachable_sessions_keep_channel_invariant_witness :
    ReachableOut android afterFirstWrite ∧
    afterFirstWrite.mDataMQ.isSome = true ∧
    (afterFirstWrite.mStatusMQ.isSome = true ∧ afterFirstWrite.mEfGroup.isSome = true) ∧
    write android afterFirstWrite 100 envTimeout ≠ Except.error Fault.nullDeref :=
  have hreach : ReachableOut android afterFirstWrite :=
    ReachableOut.write freshOut 6000 envDrained
      { status := 0, written := some 4096, state := afterFirstWrite
        trace := [Event.prepareForWriting 1 6000 0, Event.createEventFlag,
          Event.dataWrite 4096, Event.wake 1, Event.wait 2 1000000000, Event.statusRead] }
      (ReachableOut.create true) rfl
  ⟨hreach, rfl,
    (reachable_sessions_keep_channel_invariant android).1 afterFirstWrite hreach rfl,
    ((reachable_sessions_keep_channel_invariant android).2.2.2.1 android_sane afterFirstWrite
      hreach 100 envTimeout).1⟩

end StreamHalHidl
